import Mathlib

/-!
Shallow embedding of the Mars Protocol health computer
(src/packages/health-computer/src/health_computer.rs) and proofs about it.

Representation choices:

* cosmwasm Decimal (unsigned fixed point, 18 fractional digits) is represented
  by its atomics: a natural number n standing for the value n / 10^18.
* cosmwasm Uint128 is represented by an unbounded natural number.  Overflow at
  2^128 is out of scope of the claims under study; all other failure modes of
  the checked arithmetic (division by zero, underflow of unsigned subtraction)
  are modelled explicitly with typed errors.
* mars_types SignedDecimal (a Decimal together with an explicit sign; zero is
  non-negative) is represented by an integer holding the signed atomics.
  Its multiplication and division act on the absolute values with the
  Decimal (flooring) semantics and combine the signs, which on the integer
  representation is truncation toward zero.
-/

namespace MarsHealth

abbrev Denom := String

/-- Number of atomics in one unit of a Decimal (10^18). -/
def decimalOne : ℕ := 10 ^ 18

/-- Decimal multiplication: floor(a * b) on values, i.e. a*b/10^18 on atomics. -/
def dec_mul (a b : ℕ) : ℕ := a * b / decimalOne

/-- Uint128::checked_mul_floor with a Decimal: floor(u * d). -/
def uint_mul_floor (u d : ℕ) : ℕ := u * d / decimalOne

/-- Uint128::checked_mul_ceil with a Decimal: ceil(u * d). -/
def uint_mul_ceil (u d : ℕ) : ℕ := (u * d + (decimalOne - 1)) / decimalOne

/-- Decimal::to_uint_floor: integer part of a Decimal. -/
def to_uint_floor (d : ℕ) : ℕ := d / decimalOne

/-- Conversion Uint128 -> SignedDecimal (non-negative, value u). -/
def sd_of_uint (u : ℕ) : ℤ := (u : ℤ) * (decimalOne : ℤ)

/-- Modelled from the spec: SignedDecimal multiplication (mars_types::math is
not under src/).  Multiplies the absolute Decimals (flooring) and combines the
signs, i.e. truncation toward zero on signed atomics. -/
def sd_mul (a b : ℤ) : ℤ := Int.tdiv (a * b) (decimalOne : ℤ)

/-- Modelled from the spec: SignedDecimal floor to integer scale (section 4.3,
final numerators/denominators are floored before leaving the helper). -/
def sd_floor (a : ℤ) : ℤ := (Int.fdiv a (decimalOne : ℤ)) * (decimalOne : ℤ)

/-- One typed error enumeration, mirroring mars_types HealthError as used by
the health computer. -/
inductive HealthError where
  | missingPrice (denom : Denom)
  | missingAssetParams (denom : Denom)
  | missingHLSParams (denom : Denom)
  | missingVaultConfig (addr : String)
  | missingVaultValues (addr : String)
  | missingDenomState (denom : Denom)
  | missingPerpParams (denom : Denom)
  | missingAmount (denom : Denom)
  | divideByZero
  | underflow
  deriving DecidableEq, Repr

abbrev HealthResult (α : Type) := Except HealthError α

instance exceptDecEq {ε α : Type} [DecidableEq ε] [DecidableEq α] :
    DecidableEq (Except ε α)
  | .error e1, .error e2 =>
      if h : e1 = e2 then isTrue (by rw [h])
      else isFalse (fun hx => by cases hx; exact h rfl)
  | .error _, .ok _ => isFalse (fun hx => Except.noConfusion hx)
  | .ok _, .error _ => isFalse (fun hx => Except.noConfusion hx)
  | .ok a1, .ok a2 =>
      if h : a1 = a2 then isTrue (by rw [h])
      else isFalse (fun hx => by cases hx; exact h rfl)

/-- Decimal::checked_from_ratio: floor(n / d) as a Decimal, failing on a zero
denominator. -/
def dec_from_ratio (n d : ℕ) : HealthResult ℕ :=
  if d = 0 then .error .divideByZero else .ok (n * decimalOne / d)

/-- Uint128::checked_div_floor by a Decimal: floor(u / d), failing on zero. -/
def uint_div_floor (u d : ℕ) : HealthResult ℕ :=
  if d = 0 then .error .divideByZero else .ok (u * decimalOne / d)

/-- Decimal::checked_sub, failing on underflow. -/
def dec_sub (a b : ℕ) : HealthResult ℕ :=
  if a < b then .error .underflow else .ok (a - b)

/-- Modelled from the spec: SignedDecimal checked division (mars_types::math is
not under src/).  Divides the absolute Decimals (flooring) and combines the
signs; fails on a zero divisor. -/
def sd_div (a b : ℤ) : HealthResult ℤ :=
  if b = 0 then .error .divideByZero else .ok (Int.tdiv (a * (decimalOne : ℤ)) b)

/-- A coin: denom plus a Uint128 amount. -/
structure Coin where
  denom : Denom
  amount : ℕ
  deriving DecidableEq, Repr

structure HlsParams where
  max_loan_to_value : ℕ
  liquidation_threshold : ℕ
  deriving DecidableEq, Repr

structure CmSettings where
  whitelisted : Bool
  hls : Option HlsParams
  deriving DecidableEq, Repr

structure AssetParams where
  max_loan_to_value : ℕ
  liquidation_threshold : ℕ
  credit_manager : CmSettings
  deriving DecidableEq, Repr

inductive AccountKind where
  | default
  | highLeveredStrategy
  deriving DecidableEq, Repr

structure VaultConfig where
  addr : String
  max_loan_to_value : ℕ
  liquidation_threshold : ℕ
  whitelisted : Bool
  hls : Option HlsParams
  deriving DecidableEq, Repr

/-- The value data for a vault position: the reported vault-coin value and the
denom of the base coin (fields of VaultPositionValue read by the engine). -/
structure VaultPositionValue where
  vault_coin_value : ℕ
  base_coin_denom : Denom
  deriving DecidableEq, Repr

/-- A vault position: the vault address and the total unlocking base-coin
amount (v.vault.address and v.amount.unlocking().total() in the source). -/
structure VaultPosition where
  address : String
  unlocking_total : ℕ
  deriving DecidableEq, Repr

structure VaultsData where
  vault_values : List (String × VaultPositionValue)
  vault_configs : List (String × VaultConfig)
  deriving DecidableEq, Repr

structure PerpParams where
  max_loan_to_value : ℕ
  liquidation_threshold : ℕ
  opening_fee_rate : ℕ
  closing_fee_rate : ℕ
  max_long_oi_value : ℕ
  max_short_oi_value : ℕ
  max_net_oi_value : ℕ
  deriving DecidableEq, Repr

structure DenomState where
  enabled : Bool
  skew_scale : ℕ
  deriving DecidableEq, Repr

structure PerpsData where
  params : List (Denom × PerpParams)
  denom_states : List (Denom × DenomState)
  deriving DecidableEq, Repr

inductive PnL where
  | profit (amount : ℕ)
  | loss (amount : ℕ)
  | breakEven
  deriving DecidableEq, Repr

/-- A perp position, restricted to the fields the health computer reads:
size (SignedDecimal), entry and current execution prices, the closing fee
rate, the unrealised accrued funding amount and value
(unrealised_pnl.amounts.accrued_funding and unrealised_pnl.values.accrued_funding,
both SignedDecimal) and the unrealised PnL coin (unrealised_pnl.coins.pnl). -/
structure PerpPosition where
  denom : Denom
  base_denom : Denom
  size : ℤ
  entry_exec_price : ℕ
  current_exec_price : ℕ
  closing_fee_rate : ℕ
  accrued_funding : ℤ
  accrued_funding_value : ℤ
  pnl : PnL
  deriving DecidableEq, Repr

structure Positions where
  deposits : List Coin
  lends : List Coin
  debts : List Coin
  vaults : List VaultPosition
  perps : List PerpPosition
  deriving DecidableEq, Repr

structure HealthComputer where
  kind : AccountKind
  positions : Positions
  asset_params : List (Denom × AssetParams)
  vaults_data : VaultsData
  perps_data : PerpsData
  oracle_prices : List (Denom × ℕ)
  deriving DecidableEq, Repr

structure CollateralValue where
  total_collateral_value : ℕ
  max_ltv_adjusted_collateral : ℕ
  liquidation_threshold_adjusted_collateral : ℕ
  deriving DecidableEq, Repr

structure PerpPnlValues where
  profit : ℕ
  loss : ℕ
  deriving DecidableEq, Repr

structure PerpHealthFactorValues where
  max_ltv_numerator : ℤ
  max_ltv_denominator : ℤ
  liq_ltv_numerator : ℤ
  liq_ltv_denominator : ℤ
  pnl_values : PerpPnlValues
  deriving DecidableEq, Repr

/-- Health record returned by compute_health.  Health factors are Decimals. -/
structure Health where
  total_debt_value : ℕ
  total_collateral_value : ℕ
  max_ltv_adjusted_collateral : ℕ
  liquidation_threshold_adjusted_collateral : ℕ
  max_ltv_health_factor : Option ℕ
  liquidation_health_factor : Option ℕ
  perp_pnl_profit : ℕ
  perp_pnl_losses : ℕ
  deriving DecidableEq, Repr

inductive SwapKind where
  | default
  | margin
  deriving DecidableEq, Repr

inductive BorrowTarget where
  | deposit
  | wallet
  | vault (address : String)
  | swap (slippage : ℕ) (denom_out : Denom)
  deriving DecidableEq, Repr

inductive LiquidationPriceKind where
  | asset
  | debt
  deriving DecidableEq, Repr

inductive Direction where
  | long
  | short
  deriving DecidableEq, Repr

/-- HashMap lookup, modelled on an association list. -/
def assoc_get {α : Type} : List (Denom × α) → Denom → Option α
  | [], _ => none
  | (k, v) :: rest, d => if k = d then some v else assoc_get rest d

def ok_or {α : Type} : Option α → HealthError → HealthResult α
  | some v, _ => .ok v
  | none, e => .error e

/-- First coin with the given denom in a list. -/
def find_coin : List Coin → Denom → Option Coin
  | [], _ => none
  | c :: rest, d => if c.denom = d then some c else find_coin rest d

/-- get_coin_max_ltv: zero when the asset is de-listed, otherwise the max LTV
of the active account kind (the HLS sub-record is required for HLS accounts). -/
def get_coin_max_ltv (hc : HealthComputer) (denom : Denom) : HealthResult ℕ := do
  let params ← ok_or (assoc_get hc.asset_params denom) (.missingAssetParams denom)
  if params.credit_manager.whitelisted = false then pure 0 else
  match hc.kind with
  | .default => pure params.max_loan_to_value
  | .highLeveredStrategy => do
      let h ← ok_or params.credit_manager.hls (.missingHLSParams denom)
      pure h.max_loan_to_value

/-- get_liquidation_ltv: the liquidation threshold of the asset params,
with no whitelist gating and no account-kind branching. -/
def get_liquidation_ltv (hc : HealthComputer) (denom : Denom) : HealthResult ℕ := do
  let params ← ok_or (assoc_get hc.asset_params denom) (.missingAssetParams denom)
  pure params.liquidation_threshold

/-- get_perp_max_ltv: zero when the perp denom state is disabled. -/
def get_perp_max_ltv (hc : HealthComputer) (denom : Denom) : HealthResult ℕ := do
  let params ← ok_or (assoc_get hc.perps_data.params denom) (.missingPerpParams denom)
  let denom_state ← ok_or (assoc_get hc.perps_data.denom_states denom) (.missingDenomState denom)
  if denom_state.enabled = false then pure 0 else pure params.max_loan_to_value

/-- get_perp_liq_ltv: zero when the perp denom state is disabled. -/
def get_perp_liq_ltv (hc : HealthComputer) (denom : Denom) : HealthResult ℕ := do
  let params ← ok_or (assoc_get hc.perps_data.params denom) (.missingPerpParams denom)
  let denom_state ← ok_or (assoc_get hc.perps_data.denom_states denom) (.missingDenomState denom)
  if denom_state.enabled = false then pure 0 else pure params.liquidation_threshold

/-- get_coin_from_deposits_and_lends: amount available from deposits plus
lends (taking the first matching coin of each list, zero when absent). -/
def get_coin_from_deposits_and_lends (hc : HealthComputer) (denom : Denom) : Coin :=
  let deposited_amount := (find_coin hc.positions.deposits denom).elim 0 Coin.amount
  let lent_amount := (find_coin hc.positions.lends denom).elim 0 Coin.amount
  ⟨denom, deposited_amount + lent_amount⟩

/-- Loop body of coins_value for a single coin: its raw value floor(amount *
price), the max-LTV adjusted value (whitelist-gated LTV) and the liquidation
threshold adjusted value (account-kind threshold, with no whitelist gating). -/
def coin_contribution (hc : HealthComputer) (c : Coin) : HealthResult (ℕ × ℕ × ℕ) := do
  let coin_price ← ok_or (assoc_get hc.oracle_prices c.denom) (.missingPrice c.denom)
  let coin_value := uint_mul_floor c.amount coin_price
  let params ← ok_or (assoc_get hc.asset_params c.denom) (.missingAssetParams c.denom)
  let checked_max_ltv ← get_coin_max_ltv hc c.denom
  let max_ltv_adjusted := uint_mul_floor coin_value checked_max_ltv
  let checked_liquidation_threshold ←
    match hc.kind with
    | .default => pure params.liquidation_threshold
    | .highLeveredStrategy => do
        let h ← ok_or params.credit_manager.hls (.missingHLSParams c.denom)
        pure h.liquidation_threshold
  let liq_adjusted := uint_mul_floor coin_value checked_liquidation_threshold
  pure (coin_value, max_ltv_adjusted, liq_adjusted)

/-- coins_value: accumulate the three collateral totals over a coin list. -/
def coins_value (hc : HealthComputer) : List Coin → HealthResult CollateralValue
  | [] => .ok ⟨0, 0, 0⟩
  | c :: rest => do
      let (v, m, l) ← coin_contribution hc c
      let acc ← coins_value hc rest
      pure ⟨v + acc.total_collateral_value, m + acc.max_ltv_adjusted_collateral,
        l + acc.liquidation_threshold_adjusted_collateral⟩

/-- Loop body of vaults_value for a single vault position.  The vault-coin
value is counted raw; its max-LTV weight is dropped to zero when the vault or
the base asset is de-listed; the liquidation threshold is not whitelist-gated.
The unlocking base coin is then folded in as a plain deposit. -/
def vault_contribution (hc : HealthComputer) (v : VaultPosition) :
    HealthResult (ℕ × ℕ × ℕ) := do
  let values ← ok_or (assoc_get hc.vaults_data.vault_values v.address)
    (.missingVaultValues v.address)
  let config ← ok_or (assoc_get hc.vaults_data.vault_configs v.address)
    (.missingVaultConfig v.address)
  let base_params ← ok_or (assoc_get hc.asset_params values.base_coin_denom)
    (.missingAssetParams values.base_coin_denom)
  let checked_vault_max_ltv ←
    if config.whitelisted && base_params.credit_manager.whitelisted then
      match hc.kind with
      | .default => pure config.max_loan_to_value
      | .highLeveredStrategy => do
          let h ← ok_or config.hls (.missingHLSParams config.addr)
          pure h.max_loan_to_value
    else pure 0
  let max_ltv_adjusted := uint_mul_floor values.vault_coin_value checked_vault_max_ltv
  let checked_liquidation_threshold ←
    match hc.kind with
    | .default => pure config.liquidation_threshold
    | .highLeveredStrategy => do
        let h ← ok_or config.hls (.missingHLSParams config.addr)
        pure h.liquidation_threshold
  let liq_adjusted := uint_mul_floor values.vault_coin_value checked_liquidation_threshold
  let res ← coins_value hc [⟨values.base_coin_denom, v.unlocking_total⟩]
  pure (values.vault_coin_value + res.total_collateral_value,
    max_ltv_adjusted + res.max_ltv_adjusted_collateral,
    liq_adjusted + res.liquidation_threshold_adjusted_collateral)

/-- vaults_value over a list of vault positions. -/
def vaults_value_of (hc : HealthComputer) : List VaultPosition → HealthResult CollateralValue
  | [] => .ok ⟨0, 0, 0⟩
  | v :: rest => do
      let (t, m, l) ← vault_contribution hc v
      let acc ← vaults_value_of hc rest
      pure ⟨t + acc.total_collateral_value, m + acc.max_ltv_adjusted_collateral,
        l + acc.liquidation_threshold_adjusted_collateral⟩

def vaults_value (hc : HealthComputer) : HealthResult CollateralValue :=
  vaults_value_of hc hc.positions.vaults

/-- total_collateral_value: deposits, lends and vaults combined. -/
def total_collateral_value (hc : HealthComputer) : HealthResult CollateralValue := do
  let deposits ← coins_value hc hc.positions.deposits
  let lends ← coins_value hc hc.positions.lends
  let vaults ← vaults_value hc
  pure ⟨deposits.total_collateral_value + vaults.total_collateral_value
      + lends.total_collateral_value,
    deposits.max_ltv_adjusted_collateral + vaults.max_ltv_adjusted_collateral
      + lends.max_ltv_adjusted_collateral,
    deposits.liquidation_threshold_adjusted_collateral
      + vaults.liquidation_threshold_adjusted_collateral
      + lends.liquidation_threshold_adjusted_collateral⟩

/-- spot_debt_value over a debt list: sum of ceil(amount * price). -/
def spot_debt_value_of (hc : HealthComputer) : List Coin → HealthResult ℕ
  | [] => .ok 0
  | debt :: rest => do
      let coin_price ← ok_or (assoc_get hc.oracle_prices debt.denom) (.missingPrice debt.denom)
      let debt_value := uint_mul_ceil debt.amount coin_price
      let acc ← spot_debt_value_of hc rest
      pure (debt_value + acc)

def spot_debt_value (hc : HealthComputer) : HealthResult ℕ :=
  spot_debt_value_of hc hc.positions.debts

/-- get_min_and_max_funding_amounts: funding_max = accrued funding when
positive else zero; funding_min = its absolute value when negative else zero.
Returns (funding_min, funding_max). -/
def get_min_and_max_funding_amounts (position : PerpPosition) : ℤ × ℤ :=
  let accrued_funding_amount := position.accrued_funding
  let funding_max := if 0 < accrued_funding_amount then accrued_funding_amount else 0
  let funding_min :=
    if accrued_funding_amount < 0 then (accrued_funding_amount.natAbs : ℤ) else 0
  (funding_min, funding_max)

/-- Loop body of perp_health_factor_values for one position: the four signed
contributions (max-LTV numerator, max-LTV denominator, liquidation numerator,
liquidation denominator), before the final flooring.  A zero-size position
contributes nothing. -/
def perp_position_values (hc : HealthComputer) (position : PerpPosition) :
    HealthResult (ℤ × ℤ × ℤ × ℤ) := do
  let base_denom_price ← ok_or (assoc_get hc.oracle_prices position.base_denom)
    (.missingPrice position.base_denom)
  let fm := get_min_and_max_funding_amounts position
  let funding_min_value := sd_mul fm.1 (base_denom_price : ℤ)
  let funding_max_value := sd_mul fm.2 (base_denom_price : ℤ)
  let closing_rate : ℤ := (position.closing_fee_rate : ℤ)
  let position_value_open : ℤ :=
    (dec_mul position.size.natAbs position.entry_exec_price : ℕ)
  let position_value_current : ℤ :=
    ((sd_mul position.size (position.current_exec_price : ℤ)).natAbs : ℕ)
  let checked_max_ltv : ℤ := (← get_perp_max_ltv hc position.denom : ℕ)
  let checked_liq_ltv : ℤ := (← get_perp_liq_ltv hc position.denom : ℕ)
  let checked_max_ltv_base_denom : ℤ := (← get_coin_max_ltv hc position.base_denom : ℕ)
  let checked_liq_ltv_base_denom : ℤ := (← get_liquidation_ltv hc position.base_denom : ℕ)
  if position.size < 0 then
    pure (position_value_open + sd_mul funding_max_value checked_max_ltv_base_denom,
      sd_mul position_value_current
          (2 * (decimalOne : ℤ) - checked_max_ltv + closing_rate)
        + funding_min_value,
      position_value_open + sd_mul funding_max_value checked_liq_ltv_base_denom,
      sd_mul position_value_current
          (2 * (decimalOne : ℤ) - checked_liq_ltv + closing_rate)
        + funding_min_value)
  else if 0 < position.size then
    pure (sd_mul position_value_current (checked_max_ltv - closing_rate)
        + sd_mul funding_max_value checked_max_ltv_base_denom,
      position_value_open + funding_min_value,
      sd_mul position_value_current (checked_liq_ltv - closing_rate)
        + sd_mul funding_max_value checked_liq_ltv_base_denom,
      position_value_open + funding_min_value)
  else
    pure (0, 0, 0, 0)

/-- PnL bookkeeping of the perp loop: profit and loss deltas of one position. -/
def pnl_deltas (position : PerpPosition) : ℕ × ℕ :=
  match position.pnl with
  | .profit a => (a, 0)
  | .loss a => (0, a)
  | .breakEven => (0, 0)

/-- Accumulation of perp_health_factor_values over a position list, before the
final flooring: the four signed sums plus aggregated profit and loss. -/
def perp_values_accum (hc : HealthComputer) :
    List PerpPosition → HealthResult (ℤ × ℤ × ℤ × ℤ × ℕ × ℕ)
  | [] => .ok (0, 0, 0, 0, 0, 0)
  | position :: rest => do
      let pd := pnl_deltas position
      let (n, d, ln, ld) ← perp_position_values hc position
      let (accn, accd, accln, accld, accp, accl) ← perp_values_accum hc rest
      pure (n + accn, d + accd, ln + accln, ld + accld, pd.1 + accp, pd.2 + accl)

/-- perp_health_factor_values: the accumulated sums, floored to integer scale,
plus the PnL totals. -/
def perp_health_factor_values (hc : HealthComputer) (perps : List PerpPosition) :
    HealthResult PerpHealthFactorValues := do
  let (n, d, ln, ld, p, l) ← perp_values_accum hc perps
  pure ⟨sd_floor n, sd_floor d, sd_floor ln, sd_floor ld, ⟨p, l⟩⟩

/-- compute_health.  Both health factors are None exactly when the spot debt
value is zero and there are no perp positions; otherwise each is
checked_from_ratio of the floored absolute numerator and denominator sums. -/
def compute_health (hc : HealthComputer) : HealthResult Health := do
  let cv ← total_collateral_value hc
  let liquidation_threshold_adjusted_collateral_dec : ℤ :=
    sd_of_uint cv.liquidation_threshold_adjusted_collateral
  let max_ltv_adjusted_collateral_dec : ℤ := sd_of_uint cv.max_ltv_adjusted_collateral
  let spot_debt_u ← spot_debt_value hc
  let spot_debt_value_dec : ℤ := sd_of_uint spot_debt_u
  let perp_hf_values ← perp_health_factor_values hc hc.positions.perps
  let hfs ←
    if spot_debt_value_dec = 0 ∧ hc.positions.perps = [] then
      pure (none, none)
    else do
      let max_ltv_hf ← dec_from_ratio
        (to_uint_floor (max_ltv_adjusted_collateral_dec
          + perp_hf_values.max_ltv_numerator).natAbs)
        (to_uint_floor (spot_debt_value_dec + perp_hf_values.max_ltv_denominator).natAbs)
      let liq_hf ← dec_from_ratio
        (to_uint_floor (liquidation_threshold_adjusted_collateral_dec
          + perp_hf_values.liq_ltv_numerator).natAbs)
        (to_uint_floor (spot_debt_value_dec + perp_hf_values.liq_ltv_denominator).natAbs)
      pure (some max_ltv_hf, some liq_hf)
  pure ⟨to_uint_floor spot_debt_value_dec.natAbs, cv.total_collateral_value,
    cv.max_ltv_adjusted_collateral, cv.liquidation_threshold_adjusted_collateral,
    hfs.1, hfs.2, perp_hf_values.pnl_values.profit, perp_hf_values.pnl_values.loss⟩

/-- max_withdraw_amount_estimate. -/
def max_withdraw_amount_estimate (hc : HealthComputer) (withdraw_denom : Denom) :
    HealthResult ℕ := do
  let withdraw_coin := get_coin_from_deposits_and_lends hc withdraw_denom
  if withdraw_coin.amount = 0 then pure 0 else do
  let params ← ok_or (assoc_get hc.asset_params withdraw_denom)
    (.missingAssetParams withdraw_denom)
  if (hc.positions.debts = [] ∧ hc.positions.perps = [])
      ∨ params.credit_manager.whitelisted = false then
    pure withdraw_coin.amount
  else do
  let cv ← total_collateral_value hc
  let total_max_ltv_adjusted_value : ℤ := sd_of_uint cv.max_ltv_adjusted_collateral
  let debt_u ← spot_debt_value hc
  let debt_value : ℤ := sd_of_uint debt_u
  let withdraw_denom_price ← ok_or (assoc_get hc.oracle_prices withdraw_denom)
    (.missingPrice withdraw_denom)
  let withdraw_denom_max_ltv ←
    match hc.kind with
    | .default => pure params.max_loan_to_value
    | .highLeveredStrategy => do
        let h ← ok_or params.credit_manager.hls (.missingHLSParams withdraw_denom)
        pure h.max_loan_to_value
  let perp_hf_values ← perp_health_factor_values hc hc.positions.perps
  let perp_denominator := perp_hf_values.max_ltv_denominator
  let perp_numerator := perp_hf_values.max_ltv_numerator
  let one : ℤ := sd_of_uint 1
  -- Health gate of the source: inside the guard it returns zero when the
  -- absolute health factor is at most one, otherwise falls through.
  let gate ←
    if hc.positions.perps ≠ [] ∨ 0 < debt_value.natAbs then do
      let hf ← sd_div (total_max_ltv_adjusted_value + perp_numerator)
        (debt_value + perp_denominator)
      pure (decide (hf.natAbs ≤ decimalOne))
    else pure false
  if gate then pure 0 else do
  let max_withdraw_value := to_uint_floor (total_max_ltv_adjusted_value - debt_value
    - perp_denominator + perp_numerator - one).natAbs
  let max_withdraw_amount ← uint_div_floor max_withdraw_value
    (dec_mul withdraw_denom_price withdraw_denom_max_ltv)
  pure (min max_withdraw_amount withdraw_coin.amount)

/-- max_swap_amount_estimate.  The expression one minus slippage is a plain
Decimal subtraction in the source (it aborts when slippage exceeds one);
modelled with truncated subtraction, callers pass slippage at most one. -/
def max_swap_amount_estimate (hc : HealthComputer) (from_denom to_denom : Denom)
    (kind : SwapKind) (slippage : ℕ) : HealthResult ℕ := do
  let from_coin := get_coin_from_deposits_and_lends hc from_denom
  if kind = .default ∧ hc.positions.debts = [] ∧ hc.positions.perps = [] then
    pure from_coin.amount
  else do
  let cv ← total_collateral_value hc
  let total_max_ltv_adjusted_value : ℤ := sd_of_uint cv.max_ltv_adjusted_collateral
  let debt_u ← spot_debt_value hc
  let debt_value : ℤ := sd_of_uint debt_u
  let perp_hf_values ← perp_health_factor_values hc hc.positions.perps
  let perp_denominator := perp_hf_values.max_ltv_denominator
  let perp_numerator := perp_hf_values.max_ltv_numerator
  let one : ℤ := sd_of_uint 1
  let gate ←
    if hc.positions.perps ≠ [] ∨ 0 < debt_value.natAbs then do
      let hf ← sd_div (total_max_ltv_adjusted_value + perp_numerator)
        (debt_value + perp_denominator)
      pure (decide (hf.natAbs ≤ decimalOne))
    else pure false
  if gate then pure 0 else do
  let from_ltv ← get_coin_max_ltv hc from_denom
  let to_ltv ← get_coin_max_ltv hc to_denom
  if from_ltv = 0 ∨ to_ltv = 0 then pure 0 else do
  let from_price ← ok_or (assoc_get hc.oracle_prices from_denom) (.missingPrice from_denom)
  let to_ltv_slippage_corrected := dec_mul to_ltv (decimalOne - slippage)
  let swappable_amount ←
    if from_ltv ≤ to_ltv_slippage_corrected then pure from_coin.amount
    else do
      let amount ← uint_div_floor
        (to_uint_floor (total_max_ltv_adjusted_value - debt_value - perp_denominator
          + perp_numerator - one).natAbs)
        (dec_mul from_price (from_ltv - to_ltv_slippage_corrected))
      pure (min amount from_coin.amount)
  match kind with
  | .default => pure swappable_amount
  | .margin =>
      if swappable_amount < from_coin.amount then pure swappable_amount
      else do
        let from_coin_value := uint_mul_floor from_coin.amount from_price
        let swap_from_ltv_value := uint_mul_floor from_coin_value from_ltv
        let swap_to_ltv_value := uint_mul_floor from_coin_value to_ltv
        let total_max_ltv_adjust_value_after_swap := total_max_ltv_adjusted_value
          + sd_of_uint swap_to_ltv_value - sd_of_uint swap_from_ltv_value
        let sub1 ← dec_sub decimalOne to_ltv_slippage_corrected
        let borrow_amount ← uint_div_floor
          (to_uint_floor (total_max_ltv_adjust_value_after_swap - debt_value
            - perp_denominator + perp_numerator - one).natAbs)
          (dec_mul sub1 from_price)
        pure (borrow_amount + from_coin.amount)

/-- Result type of max_borrow_amount_estimate: the source contains an unwrap,
so besides returning a value or a typed error the call can abort. -/
inductive Outcome (α : Type) where
  | ok (value : α)
  | err (e : HealthError)
  | panicked
  deriving DecidableEq, Repr

def Outcome.bind {α β : Type} : Outcome α → (α → Outcome β) → Outcome β
  | .ok a, f => f a
  | .err e, _ => .err e
  | .panicked, _ => .panicked

instance : Monad Outcome where
  pure := Outcome.ok
  bind := Outcome.bind

/-- Lift a HealthResult into an Outcome (the question-mark operator). -/
def hres {α : Type} : HealthResult α → Outcome α
  | .ok a => .ok a
  | .error e => .err e

/-- max_borrow_amount_estimate.  The numerator is identical in all four target
branches of the source and is hoisted here.  In the Swap branch the source
calls get_coin_max_ltv(denom_out).unwrap(), which aborts (panics) on any
lookup error instead of returning it. -/
def max_borrow_amount_estimate (hc : HealthComputer) (borrow_denom : Denom)
    (target : BorrowTarget) : Outcome ℕ := do
  let cv ← hres (total_collateral_value hc)
  let total_max_ltv_adjusted_value : ℤ := sd_of_uint cv.max_ltv_adjusted_collateral
  let debt_u ← hres (spot_debt_value hc)
  let debt_value : ℤ := sd_of_uint debt_u
  let one : ℤ := sd_of_uint 1
  let perp_hf_values ← hres (perp_health_factor_values hc hc.positions.perps)
  let perp_denominator := perp_hf_values.max_ltv_denominator
  let perp_numerator := perp_hf_values.max_ltv_numerator
  let params ← hres (ok_or (assoc_get hc.asset_params borrow_denom)
    (.missingAssetParams borrow_denom))
  if params.credit_manager.whitelisted = false ∨ total_max_ltv_adjusted_value = 0 then
    pure 0
  else do
  let gate ←
    if hc.positions.perps ≠ [] ∨ 0 < debt_value.natAbs then do
      let hf ← hres (sd_div (total_max_ltv_adjusted_value + perp_numerator)
        (debt_value + perp_denominator))
      pure (decide (hf.natAbs ≤ decimalOne))
    else pure false
  if gate then pure 0 else do
  let borrow_denom_max_ltv ←
    match hc.kind with
    | .default => pure params.max_loan_to_value
    | .highLeveredStrategy => do
        let h ← hres (ok_or params.credit_manager.hls (.missingHLSParams borrow_denom))
        pure h.max_loan_to_value
  let borrow_denom_price ← hres (ok_or (assoc_get hc.oracle_prices borrow_denom)
    (.missingPrice borrow_denom))
  let numerator := to_uint_floor (total_max_ltv_adjusted_value - debt_value
    - perp_denominator + perp_numerator - one).natAbs
  match target with
  | .deposit => do
      let d1 ← hres (dec_sub decimalOne borrow_denom_max_ltv)
      hres (uint_div_floor numerator (dec_mul borrow_denom_price d1))
  | .wallet => hres (uint_div_floor numerator borrow_denom_price)
  | .vault address => do
      let config ← hres (ok_or (assoc_get hc.vaults_data.vault_configs address)
        (.missingVaultConfig address))
      let checked_vault_max_ltv ←
        if config.whitelisted then
          match hc.kind with
          | .default => pure config.max_loan_to_value
          | .highLeveredStrategy => do
              let h ← hres (ok_or config.hls (.missingHLSParams config.addr))
              pure h.max_loan_to_value
        else pure 0
      let d1 ← hres (dec_sub decimalOne checked_vault_max_ltv)
      hres (uint_div_floor numerator (dec_mul borrow_denom_price d1))
  | .swap slippage denom_out =>
      match get_coin_max_ltv hc denom_out with
      | .error _ => .panicked
      | .ok denom_out_ltv => do
          let out_ltv_slippage_corrected := dec_mul denom_out_ltv (decimalOne - slippage)
          let d1 ← hres (dec_sub decimalOne out_ltv_slippage_corrected)
          hres (uint_div_floor numerator (dec_mul borrow_denom_price d1))

/-- liquidation_price.  Returns zero when the spot debt value is zero and the
floor of the current price when the debt value is at least the max-LTV
adjusted collateral (the source multiplies Uint128::one() by the price, which
floors).  The Decimal::from_ratio on the asset LTV aborts in the source when
the LTV is zero; modelled as a divide-by-zero error. -/
def liquidation_price (hc : HealthComputer) (denom : Denom)
    (kind : LiquidationPriceKind) : HealthResult ℕ := do
  let cv ← total_collateral_value hc
  let collateral_ltv_value := cv.max_ltv_adjusted_collateral
  let total_debt_value ← spot_debt_value hc
  if total_debt_value = 0 then pure 0 else do
  let current_price ← ok_or (assoc_get hc.oracle_prices denom) (.missingPrice denom)
  if collateral_ltv_value ≤ total_debt_value then pure (to_uint_floor current_price)
  else
  match kind with
  | .asset => do
      let asset_amount := (get_coin_from_deposits_and_lends hc denom).amount
      if asset_amount = 0 then Except.error (.missingAmount denom) else do
      let asset_ltv ← get_coin_max_ltv hc denom
      let asset_ltv_value := uint_mul_floor asset_amount (dec_mul current_price asset_ltv)
      let debt_with_asset_ltv_value := total_debt_value + asset_ltv_value
      if debt_with_asset_ltv_value ≤ collateral_ltv_value then pure 0 else do
      let debt_without := debt_with_asset_ltv_value - collateral_ltv_value
      let r1 ← dec_from_ratio debt_without asset_amount
      let r2 ← dec_from_ratio decimalOne asset_ltv
      pure (to_uint_floor (dec_mul r1 r2))
  | .debt => do
      let found ← ok_or (find_coin hc.positions.debts denom) (.missingAmount denom)
      if found.amount = 0 then Except.error (.missingAmount denom) else do
      let debt_value := uint_mul_ceil found.amount current_price
      -- checked_add then checked_sub in the source; the earlier guard makes
      -- the subtraction safe, so plain truncated subtraction is exact here.
      let net_collateral_value_without_debt :=
        collateral_ltv_value + debt_value - total_debt_value
      pure (net_collateral_value_without_debt / found.amount)

/-- Direction.sign: plus or minus one as a SignedDecimal. -/
def Direction.sign : Direction → ℤ
  | .long => (decimalOne : ℤ)
  | .short => -(decimalOne : ℤ)

/-- Modelled from the spec: Decimal square root (cosmwasm Decimal::sqrt is an
external dependency; section 9 requires a deterministic integer square root on
the scaled representation). -/
def dec_sqrt (a : ℕ) : ℕ := Nat.sqrt (a * decimalOne)

/-- Modelled from the spec: utils::calculate_remaining_oi_value is repository
code that is not under src/.  Section 4.6 step 1: the remaining open-interest
room in the requested direction is bounded by the directional cap and by the
net cap; an exhausted cap (including a net open interest already beyond
max_net_oi_value, boundary row 6) yields zero.  The room value is converted
back to an amount at the oracle price. -/
def calculate_remaining_oi_value (long_oi_amount short_oi_amount : ℕ) (price : ℕ)
    (perp_params : PerpParams) (direction : Direction) : HealthResult ℤ := do
  let long_oi_value := dec_mul long_oi_amount price
  let short_oi_value := dec_mul short_oi_amount price
  let net_oi_value := ((long_oi_value : ℤ) - (short_oi_value : ℤ)).natAbs
  let direction_cap := match direction with
    | .long => perp_params.max_long_oi_value
    | .short => perp_params.max_short_oi_value
  let direction_oi_value := match direction with
    | .long => long_oi_value
    | .short => short_oi_value
  if direction_cap ≤ direction_oi_value ∨ perp_params.max_net_oi_value ≤ net_oi_value then
    pure 0
  else do
    let remaining_value := min (direction_cap - direction_oi_value)
      (perp_params.max_net_oi_value - net_oi_value)
    if price = 0 then Except.error .divideByZero
    else pure ((remaining_value * decimalOne / price : ℕ) : ℤ)

/-- get_execution_price: oracle price times (1 + (skew - q_old / 2) /
skew_scale), with the subtractor zero for a zero q_old. -/
def get_execution_price (perp_oracle_price skew skew_scale q_old : ℤ) :
    HealthResult ℤ := do
  let subtractor ←
    if q_old = 0 then pure 0
    else sd_div q_old (2 * (decimalOne : ℤ))
  let ratio ← sd_div (skew - subtractor) skew_scale
  pure (sd_mul perp_oracle_price ((decimalOne : ℤ) + ratio))

/-- account_composition: the base-denom collateral value, the LTV-weighted
value of everything else (including the perp numerator of the other perps)
and the debt value (spot debt plus the perp denominator of the other perps). -/
def account_composition (hc : HealthComputer) (base_denom denom : Denom)
    (base_denom_price : ℤ) : HealthResult (ℤ × ℤ × ℤ) := do
  let account_base_denom_deposits :=
    (find_coin hc.positions.deposits base_denom).elim 0 Coin.amount
  let other_deposits := hc.positions.deposits.filter (fun c => c.denom ≠ base_denom)
  let account_base_denom_lends :=
    (find_coin hc.positions.lends base_denom).elim 0 Coin.amount
  let other_lends := hc.positions.lends.filter (fun c => c.denom ≠ base_denom)
  let filtered_perps := hc.positions.perps.filter (fun p => p.denom ≠ denom)
  let base_denom_collateral_value := sd_mul base_denom_price
    (sd_of_uint (account_base_denom_deposits + account_base_denom_lends))
  let dep_values ← coins_value hc other_deposits
  let lend_values ← coins_value hc other_lends
  let vault_values ← vaults_value hc
  let assets_ltv_adjusted_value := dep_values.max_ltv_adjusted_collateral
    + lend_values.max_ltv_adjusted_collateral + vault_values.max_ltv_adjusted_collateral
  let other_perp_hf_values ← perp_health_factor_values hc filtered_perps
  let other_collateral_value := sd_of_uint assets_ltv_adjusted_value
    + other_perp_hf_values.max_ltv_numerator
  let raw_debt_value ← spot_debt_value_of hc hc.positions.debts
  let debt_value := sd_of_uint raw_debt_value + other_perp_hf_values.max_ltv_denominator
  pure (base_denom_collateral_value, other_collateral_value, debt_value)

/-- max_perp_size_estimate: quadratic estimate of the largest perp size that
keeps the max-LTV health factor at one, clipped by the open-interest caps and
negated for the short direction. -/
def max_perp_size_estimate (hc : HealthComputer) (denom base_denom : Denom)
    (long_oi_amount short_oi_amount : ℕ) (direction : Direction) :
    HealthResult ℤ := do
  let two : ℤ := 2 * (decimalOne : ℤ)
  let perp_oracle_price : ℤ :=
    ((← ok_or (assoc_get hc.oracle_prices denom) (.missingPrice denom) : ℕ) : ℤ)
  let base_denom_price : ℤ :=
    ((← ok_or (assoc_get hc.oracle_prices base_denom) (.missingPrice base_denom) : ℕ) : ℤ)
  let denom_state ← ok_or (assoc_get hc.perps_data.denom_states denom)
    (.missingDenomState denom)
  let perp_params ← ok_or (assoc_get hc.perps_data.params denom)
    (.missingPerpParams denom)
  let closing_fee_rate := perp_params.closing_fee_rate
  let opening_fee_rate := perp_params.opening_fee_rate
  let skew_scale : ℤ := (denom_state.skew_scale : ℤ)
  let ltv_base_denom ← get_coin_max_ltv hc base_denom
  let ltv_p : ℤ := (perp_params.max_loan_to_value : ℤ)
  let max_oi_change_amount ← calculate_remaining_oi_value long_oi_amount
    short_oi_amount perp_oracle_price.natAbs perp_params direction
  if max_oi_change_amount = 0 then pure max_oi_change_amount else do
  let k : ℤ := (long_oi_amount : ℤ) - (short_oi_amount : ℤ)
  let existing := hc.positions.perps.find? (fun x => x.denom = denom)
  let fqp ← match existing with
    | none => do
        let p ← get_execution_price perp_oracle_price k skew_scale 0
        pure ((0 : ℤ), (0 : ℤ), p)
    | some pos => pure (pos.accrued_funding_value, pos.size, (pos.entry_exec_price : ℤ))
  let f := fqp.1
  let q_old := fqp.2.1
  let p_ex_o := fqp.2.2
  let p_ex ← get_execution_price perp_oracle_price k skew_scale q_old
  let closing_fee_value := dec_mul (dec_mul p_ex.natAbs closing_fee_rate) q_old.natAbs
  let ip : ℕ × ℕ :=
    if (q_old < 0 ∧ direction = .long) ∨ (0 < q_old ∧ direction = .short) then
      (0, decimalOne)
    else (decimalOne, 0)
  let i := ip.1
  let i_prim := ip.2
  let u_pnl ←
    if q_old = 0 then pure (0 : ℤ)
    else pure (sd_mul q_old (p_ex - p_ex_o) + f)
  let comp ← account_composition hc base_denom denom base_denom_price
  let base_denom_collateral_value := comp.1
  let rwa_value := comp.2.1
  let debt_value := comp.2.2
  let z : ℤ := ltv_p - (closing_fee_rate : ℤ) - (opening_fee_rate : ℤ) - (decimalOne : ℤ)
  let a0 ← sd_div perp_oracle_price (sd_mul two skew_scale)
  let a := sd_mul (sd_mul z a0) direction.sign
  let kq ← sd_div (k - q_old) skew_scale
  let b := sd_mul (sd_mul perp_oracle_price z) ((decimalOne : ℤ) + kq)
  let c1 := base_denom_collateral_value
    + (u_pnl - ((dec_mul closing_fee_value i_prim : ℕ) : ℤ))
  let c_max := max 0 c1
  let c_min := 0 - min 0 c1
  let c_delta := sd_mul c_max (ltv_base_denom : ℤ) - c_min
  let half_q ← sd_div q_old two
  let kq2 ← sd_div (k - half_q) skew_scale
  let c_add := sd_mul (sd_mul (sd_mul (sd_mul perp_oracle_price
    ((q_old.natAbs : ℕ) : ℤ)) (opening_fee_rate : ℤ))
    ((decimalOne : ℤ) + kq2)) ((i : ℕ) : ℤ)
  let c := rwa_value - debt_value + c_delta + c_add
  let d := sd_mul b b - sd_mul (sd_mul (4 * (decimalOne : ℤ)) a) c
  let q0 ← sd_div (b + ((dec_sqrt d.natAbs : ℕ) : ℤ)) (sd_mul two a)
  let q_max_amount := 0 - q0
  let q_clipped :=
    if max_oi_change_amount.natAbs < q_max_amount.natAbs then max_oi_change_amount
    else q_max_amount
  pure (match direction with
    | .long => q_clipped
    | .short => 0 - q_clipped)

/-! Concrete snapshots used by the witnesses and counterexamples below. -/

def ps_whitelisted (ltv lt : ℕ) : AssetParams := ⟨ltv, lt, ⟨true, none⟩⟩

def ps_delisted (ltv lt : ℕ) : AssetParams := ⟨ltv, lt, ⟨false, none⟩⟩

def no_vaults : VaultsData := ⟨[], []⟩

def no_perps_data : PerpsData := ⟨[], []⟩

/-- A single de-listed deposit with a nonzero liquidation threshold. -/
def exDelisted : HealthComputer :=
  ⟨.default, ⟨[⟨"ublack", 10⟩], [], [], [], []⟩,
    [("ublack", ps_delisted (9 * decimalOne / 10) (decimalOne / 2))],
    no_vaults, no_perps_data, [("ublack", decimalOne)]⟩

/-- A single whitelisted deposit whose max LTV exceeds its liquidation
threshold (the engine performs no validation of the snapshot parameters). -/
def exLtvAboveLt : HealthComputer :=
  ⟨.default, ⟨[⟨"uatom", 10⟩], [], [], [], []⟩,
    [("uatom", ps_whitelisted (9 * decimalOne / 10) (decimalOne / 2))],
    no_vaults, no_perps_data, [("uatom", decimalOne)]⟩

/-- A healthy account: 100 uatom deposited (price 1, LTV 0.5, threshold 0.6),
10 uusdc of debt (price 1). -/
def exHealthy : HealthComputer :=
  ⟨.default, ⟨[⟨"uatom", 100⟩], [], [⟨"uusdc", 10⟩], [], []⟩,
    [("uatom", ps_whitelisted (decimalOne / 2) (6 * decimalOne / 10)),
      ("uusdc", ps_whitelisted (8 * decimalOne / 10) (9 * decimalOne / 10))],
    no_vaults, no_perps_data, [("uatom", decimalOne), ("uusdc", decimalOne)]⟩

/-- A long perp on a disabled denom: perp LTVs are forced to zero, so the
closing-fee term makes the perp numerator contribution negative.  The
parameter is the current execution price. -/
def exDisabledPerp (cur : ℕ) : HealthComputer :=
  ⟨.default, ⟨[⟨"uatom", 1⟩], [], [], [],
      [⟨"xperp", "uusdc", decimalOne, decimalOne, cur, decimalOne / 10, 0, 0, .breakEven⟩]⟩,
    [("uatom", ps_whitelisted (decimalOne / 2) (6 * decimalOne / 10)),
      ("uusdc", ps_whitelisted (8 * decimalOne / 10) (9 * decimalOne / 10))],
    no_vaults,
    ⟨[("xperp", ⟨9 * decimalOne / 10, 95 * decimalOne / 100, 0, 0, 0, 0, 0⟩)],
      [("xperp", ⟨false, decimalOne⟩)]⟩,
    [("uatom", decimalOne), ("uusdc", decimalOne)]⟩

/-- A short perp position (size -2) with positive accrued funding on an
enabled denom. -/
def exShortPerp : HealthComputer :=
  ⟨.default, ⟨[], [], [], [],
      [⟨"sperp", "uusdc", -(2 * (decimalOne : ℤ)), 3 * decimalOne, 4 * decimalOne,
        decimalOne / 10, 5 * (decimalOne : ℤ), 5 * (decimalOne : ℤ), .profit 7⟩]⟩,
    [("uusdc", ps_whitelisted (8 * decimalOne / 10) (9 * decimalOne / 10))],
    no_vaults,
    ⟨[("sperp", ⟨4 * decimalOne / 10, decimalOne / 2, 0, 0, 0, 0, 0⟩)],
      [("sperp", ⟨true, decimalOne⟩)]⟩,
    [("uusdc", decimalOne)]⟩

/-- A deposit-only account used for the borrow-swap panic: 100 uatom of
whitelisted collateral, no debt, no perps; the denom xyz has no asset
params. -/
def exBorrowSwap : HealthComputer :=
  ⟨.default, ⟨[⟨"uatom", 100⟩], [], [], [], []⟩,
    [("uatom", ps_whitelisted (8 * decimalOne / 10) (9 * decimalOne / 10))],
    no_vaults, no_perps_data, [("uatom", decimalOne)]⟩

/-- An under-water account with a fractional oracle price: 4 uosmo at price
0.25 (max-LTV adjusted collateral 0) against 10 uusdc of debt. -/
def exUnderWater : HealthComputer :=
  ⟨.default, ⟨[⟨"uosmo", 4⟩], [], [⟨"uusdc", 10⟩], [], []⟩,
    [("uosmo", ps_whitelisted (decimalOne / 2) (6 * decimalOne / 10)),
      ("uusdc", ps_whitelisted (8 * decimalOne / 10) (9 * decimalOne / 10))],
    no_vaults, no_perps_data, [("uosmo", decimalOne / 4), ("uusdc", decimalOne)]⟩

/-- The healthy account plus a de-listed swap target denom xyz. -/
def exSwapDelisted : HealthComputer :=
  ⟨.default, ⟨[⟨"uatom", 100⟩], [], [⟨"uusdc", 1⟩], [], []⟩,
    [("uatom", ps_whitelisted (8 * decimalOne / 10) (9 * decimalOne / 10)),
      ("uusdc", ps_whitelisted (8 * decimalOne / 10) (9 * decimalOne / 10)),
      ("xyz", ps_delisted (8 * decimalOne / 10) (9 * decimalOne / 10))],
    no_vaults, no_perps_data,
    [("uatom", decimalOne), ("uusdc", decimalOne), ("xyz", decimalOne)]⟩

/-! Reduction lemmas for the Except and Outcome monads and small arithmetic
facts used throughout the proofs. -/

theorem hr_bind_ok {α β : Type} (a : α) (f : α → HealthResult β) :
    (Except.ok a : HealthResult α) >>= f = f a := rfl

theorem hr_bind_error {α β : Type} (e : HealthError) (f : α → HealthResult β) :
    ((Except.error e : HealthResult α) >>= f) = .error e := rfl

theorem hr_pure_eq {α : Type} (a : α) : (pure a : HealthResult α) = .ok a := rfl

theorem out_bind_ok {α β : Type} (a : α) (f : α → Outcome β) :
    (Outcome.ok a >>= f) = f a := rfl

theorem out_bind_err {α β : Type} (e : HealthError) (f : α → Outcome β) :
    ((Outcome.err e : Outcome α) >>= f) = .err e := rfl

theorem out_pure_eq {α : Type} (a : α) : (pure a : Outcome α) = .ok a := rfl

theorem hres_ok {α : Type} (a : α) : hres (.ok a : HealthResult α) = .ok a := rfl

theorem hres_error {α : Type} (e : HealthError) :
    hres (.error e : HealthResult α) = .err e := rfl

theorem ok_or_some {α : Type} (v : α) (e : HealthError) : ok_or (some v) e = .ok v := rfl

theorem ok_or_none {α : Type} (e : HealthError) :
    ok_or (none : Option α) e = .error e := rfl

theorem decimalOne_pos : 0 < decimalOne := by norm_num [decimalOne]

theorem uint_mul_floor_zero (v : ℕ) : uint_mul_floor v 0 = 0 := by
  simp [uint_mul_floor]

theorem uint_mul_floor_mono (v : ℕ) {a b : ℕ} (h : a ≤ b) :
    uint_mul_floor v a ≤ uint_mul_floor v b :=
  Nat.div_le_div_right (Nat.mul_le_mul_left v h)

theorem uint_mul_floor_le_self (v : ℕ) {b : ℕ} (h : b ≤ decimalOne) :
    uint_mul_floor v b ≤ v := by
  have h1 : v * b / decimalOne ≤ v * decimalOne / decimalOne :=
    Nat.div_le_div_right (Nat.mul_le_mul_left v h)
  have h2 : v * decimalOne / decimalOne = v := Nat.mul_div_cancel v decimalOne_pos
  simpa [uint_mul_floor, h2] using h1

theorem to_uint_floor_sd (u : ℕ) : to_uint_floor (sd_of_uint u).natAbs = u := by
  have h1 : (sd_of_uint u).natAbs = u * decimalOne := by
    simp [sd_of_uint, Int.natAbs_mul]
  rw [to_uint_floor, h1, Nat.mul_div_cancel u decimalOne_pos]

theorem assoc_get_some_mem {α : Type} {l : List (Denom × α)} {d : Denom} {v : α}
    (h : assoc_get l d = some v) : (d, v) ∈ l := by
  induction l with
  | nil => simp [assoc_get] at h
  | cons kv rest ih =>
      obtain ⟨k, v0⟩ := kv
      by_cases hk : k = d
      · subst hk
        rw [assoc_get, if_pos rfl] at h
        cases h
        exact List.mem_cons_self _ _
      · rw [assoc_get, if_neg hk] at h
        exact List.mem_cons_of_mem _ (ih h)

/-! Claim C1. -/

/-- Claim C1 counterexample: in exDelisted the only deposit is de-listed
(whitelisted = false) with liquidation threshold 0.5 and value 10; its
max-LTV contribution is 0 and its raw value counts fully, but its
liquidation-threshold contribution is 5, not zero as the claim requires. -/
theorem c1_counterexample :
    total_collateral_value exDelisted = .ok ⟨10, 0, 5⟩ ∧ (5 : ℕ) ≠ 0 :=
  ⟨rfl, by norm_num⟩

/-- Claim C1 (amended): for a Default account, a coin whose asset params have
whitelisted = false contributes its full floor(amount times price) value to
total_collateral_value and zero to max_ltv_adjusted_collateral, but its
liquidation-threshold weighted value (which need not be zero) to
liquidation_threshold_adjusted_collateral. -/
theorem c1_delisted_contribution (hc : HealthComputer) (c : Coin) (ps : AssetParams)
    (p : ℕ) (hkind : hc.kind = .default)
    (hps : assoc_get hc.asset_params c.denom = some ps)
    (hwl : ps.credit_manager.whitelisted = false)
    (hp : assoc_get hc.oracle_prices c.denom = some p) :
    coin_contribution hc c =
      .ok (uint_mul_floor c.amount p, 0,
        uint_mul_floor (uint_mul_floor c.amount p) ps.liquidation_threshold)
    ∧ ∀ rest acc, coins_value hc rest = .ok acc →
        coins_value hc (c :: rest) = .ok
          ⟨uint_mul_floor c.amount p + acc.total_collateral_value,
            acc.max_ltv_adjusted_collateral,
            uint_mul_floor (uint_mul_floor c.amount p) ps.liquidation_threshold
              + acc.liquidation_threshold_adjusted_collateral⟩ := by
  have hltv : get_coin_max_ltv hc c.denom = .ok 0 := by
    unfold get_coin_max_ltv
    rw [hps, ok_or_some, hr_bind_ok, hwl]
    simp [hr_pure_eq]
  have hcc : coin_contribution hc c =
      .ok (uint_mul_floor c.amount p, 0,
        uint_mul_floor (uint_mul_floor c.amount p) ps.liquidation_threshold) := by
    unfold coin_contribution
    rw [hp, ok_or_some, hr_bind_ok, hps, ok_or_some, hr_bind_ok, hltv, hr_bind_ok,
      hkind]
    simp [hr_bind_ok, hr_pure_eq, uint_mul_floor_zero]
  refine ⟨hcc, fun rest acc hrest => ?_⟩
  unfold coins_value
  rw [hcc, hr_bind_ok]
  simp only [hrest, hr_bind_ok, hr_pure_eq]
  norm_num

/-- Claim C1 witness: the amended statement applied to the concrete de-listed
snapshot exDelisted. -/
theorem c1_witness :
    coin_contribution exDelisted ⟨"ublack", 10⟩ = .ok (10, 0, 5)
    ∧ coins_value exDelisted [⟨"ublack", 10⟩] = .ok ⟨10, 0, 5⟩ := by
  have h := c1_delisted_contribution exDelisted ⟨"ublack", 10⟩
    (ps_delisted (9 * decimalOne / 10) (decimalOne / 2)) decimalOne rfl rfl rfl rfl
  refine ⟨?_, ?_⟩
  · rw [h.1]
    norm_num [uint_mul_floor, decimalOne, ps_delisted]
  · have h2 := h.2 [] ⟨0, 0, 0⟩ rfl
    rw [h2]
    norm_num [uint_mul_floor, decimalOne, ps_delisted]

/-! Claim C5. -/

/-- Claim C5: in exBorrowSwap (whitelisted collateral, no debt, no perps) a
max-borrow with target Swap whose denom_out xyz has no asset params reaches
the unwrap in the source and aborts, instead of returning the
MissingAssetParams error that the lookup produces. -/
theorem c5_borrow_swap_panics :
    max_borrow_amount_estimate exBorrowSwap "uatom" (.swap 0 "xyz") = .panicked
    ∧ get_coin_max_ltv exBorrowSwap "xyz" = .error (.missingAssetParams "xyz") :=
  ⟨rfl, rfl⟩

/-! Claim C7. -/

/-- Claim C7 counterexample: in exUnderWater the spot debt value 10 exceeds
the max-LTV adjusted collateral 0 and the oracle price of uosmo is 0.25, yet
liquidation_price returns the integer 0 (the floor of the price), not the
current oracle price as the claim states. -/
theorem c7_counterexample :
    liquidation_price exUnderWater "uosmo" .asset = .ok 0
    ∧ assoc_get exUnderWater.oracle_prices "uosmo" = some (decimalOne / 4)
    ∧ spot_debt_value exUnderWater = .ok 10
    ∧ total_collateral_value exUnderWater = .ok ⟨1, 0, 0⟩
    ∧ sd_of_uint 0 ≠ ((decimalOne / 4 : ℕ) : ℤ) := by
  refine ⟨rfl, rfl, rfl, rfl, ?_⟩
  norm_num [sd_of_uint, decimalOne]

/-- Claim C7 (amended): liquidation_price returns zero whenever the spot debt
value is zero, and returns the floor of the target denom's current oracle
price whenever the spot debt value is nonzero and at least the max-LTV
adjusted collateral, for both kinds. -/
theorem c7_liquidation_price (hc : HealthComputer) (denom : Denom)
    (kind : LiquidationPriceKind) (cv : CollateralValue) (d : ℕ)
    (hcv : total_collateral_value hc = .ok cv) (hd : spot_debt_value hc = .ok d) :
    (d = 0 → liquidation_price hc denom kind = .ok 0)
    ∧ (∀ p, assoc_get hc.oracle_prices denom = some p → d ≠ 0 →
        cv.max_ltv_adjusted_collateral ≤ d →
        liquidation_price hc denom kind = .ok (to_uint_floor p)) := by
  unfold liquidation_price
  rw [hcv, hr_bind_ok, hd, hr_bind_ok]
  constructor
  · intro h0
    rw [h0]
    simp [hr_pure_eq]
  · intro p hp hne hle
    rw [if_neg hne, hp, ok_or_some, hr_bind_ok, if_pos hle]
    rfl

/-- Claim C7 witness: the amended statement applied to a zero-debt snapshot
and to the under-water snapshot exUnderWater. -/
theorem c7_witness :
    liquidation_price exLtvAboveLt "uatom" .debt = .ok 0
    ∧ liquidation_price exUnderWater "uosmo" .asset = .ok (to_uint_floor (decimalOne / 4)) := by
  constructor
  · exact (c7_liquidation_price exLtvAboveLt "uatom" .debt ⟨10, 9, 5⟩ 0 rfl rfl).1 rfl
  · exact (c7_liquidation_price exUnderWater "uosmo" .asset ⟨1, 0, 0⟩ 10 rfl rfl).2
      (decimalOne / 4) rfl (by norm_num) (by norm_num)

/-! Characterization of compute_health, shared by the claims about the health
factors. -/

theorem sd_of_uint_eq_zero (u : ℕ) : sd_of_uint u = 0 ↔ u = 0 := by
  simp [sd_of_uint, decimalOne]

/-- Case analysis of compute_health once the three sub-computations are
known: the both-None case, the two divide-by-zero cases and the Some case
with the explicit floored absolute-value ratios. -/
theorem compute_health_cases (hc : HealthComputer) (cv : CollateralValue) (d : ℕ)
    (phv : PerpHealthFactorValues)
    (hcv : total_collateral_value hc = .ok cv) (hd : spot_debt_value hc = .ok d)
    (hp : perp_health_factor_values hc hc.positions.perps = .ok phv) :
    ((sd_of_uint d = 0 ∧ hc.positions.perps = []) →
      compute_health hc = .ok ⟨d, cv.total_collateral_value,
        cv.max_ltv_adjusted_collateral, cv.liquidation_threshold_adjusted_collateral,
        none, none, phv.pnl_values.profit, phv.pnl_values.loss⟩)
    ∧ (¬(sd_of_uint d = 0 ∧ hc.positions.perps = []) →
        (to_uint_floor (sd_of_uint d + phv.max_ltv_denominator).natAbs = 0 →
          compute_health hc = .error .divideByZero)
        ∧ (to_uint_floor (sd_of_uint d + phv.max_ltv_denominator).natAbs ≠ 0 →
            to_uint_floor (sd_of_uint d + phv.liq_ltv_denominator).natAbs = 0 →
            compute_health hc = .error .divideByZero)
        ∧ (to_uint_floor (sd_of_uint d + phv.max_ltv_denominator).natAbs ≠ 0 →
            to_uint_floor (sd_of_uint d + phv.liq_ltv_denominator).natAbs ≠ 0 →
            compute_health hc = .ok ⟨d, cv.total_collateral_value,
              cv.max_ltv_adjusted_collateral,
              cv.liquidation_threshold_adjusted_collateral,
              some (to_uint_floor (sd_of_uint cv.max_ltv_adjusted_collateral
                  + phv.max_ltv_numerator).natAbs * decimalOne
                / to_uint_floor (sd_of_uint d + phv.max_ltv_denominator).natAbs),
              some (to_uint_floor (sd_of_uint cv.liquidation_threshold_adjusted_collateral
                  + phv.liq_ltv_numerator).natAbs * decimalOne
                / to_uint_floor (sd_of_uint d + phv.liq_ltv_denominator).natAbs),
              phv.pnl_values.profit, phv.pnl_values.loss⟩)) := by
  have hdr0 : ∀ n m : ℕ, m = 0 → dec_from_ratio n m = Except.error .divideByZero :=
    fun n m hm => by rw [dec_from_ratio, if_pos hm]
  have hdrS : ∀ n m : ℕ, m ≠ 0 → dec_from_ratio n m = .ok (n * decimalOne / m) :=
    fun n m hm => by rw [dec_from_ratio, if_neg hm]
  unfold compute_health
  rw [hcv, hr_bind_ok, hd, hr_bind_ok, hp, hr_bind_ok]
  constructor
  · intro hz
    rw [if_pos hz]
    simp only [hr_pure_eq, hr_bind_ok, to_uint_floor_sd]
  · intro hnz
    rw [if_neg hnz]
    refine ⟨?_, ?_, ?_⟩
    · intro hz1
      rw [hdr0 _ _ hz1]
      simp only [hr_bind_error]
    · intro hnz1 hz2
      rw [hdrS _ _ hnz1]
      simp only [hr_bind_ok]
      rw [hdr0 _ _ hz2]
      simp only [hr_bind_error]
    · intro hnz1 hnz2
      rw [hdrS _ _ hnz1]
      simp only [hr_bind_ok]
      rw [hdrS _ _ hnz2]
      simp only [hr_bind_ok, hr_pure_eq, to_uint_floor_sd]

/-! Claim C2. -/

/-- Claim C2: compute_health returns both health factors as None exactly when
the spot debt value is zero and there are no perps; otherwise, when both
floored absolute denominators are nonzero, both factors are Some and equal
the checked_from_ratio of the floored absolute numerator and denominator
sums; and when a floored denominator is zero the call fails with a
divide-by-zero error. -/
theorem c2_health_factors (hc : HealthComputer) (cv : CollateralValue) (d : ℕ)
    (phv : PerpHealthFactorValues)
    (hcv : total_collateral_value hc = .ok cv) (hd : spot_debt_value hc = .ok d)
    (hp : perp_health_factor_values hc hc.positions.perps = .ok phv) :
    ((d = 0 ∧ hc.positions.perps = []) →
      compute_health hc = .ok ⟨d, cv.total_collateral_value,
        cv.max_ltv_adjusted_collateral, cv.liquidation_threshold_adjusted_collateral,
        none, none, phv.pnl_values.profit, phv.pnl_values.loss⟩)
    ∧ (∀ h : Health, compute_health hc = .ok h →
        ((h.max_ltv_health_factor = none ∧ h.liquidation_health_factor = none) ↔
          (d = 0 ∧ hc.positions.perps = [])))
    ∧ (¬(d = 0 ∧ hc.positions.perps = []) →
        to_uint_floor (sd_of_uint d + phv.max_ltv_denominator).natAbs ≠ 0 →
        to_uint_floor (sd_of_uint d + phv.liq_ltv_denominator).natAbs ≠ 0 →
        compute_health hc = .ok ⟨d, cv.total_collateral_value,
          cv.max_ltv_adjusted_collateral, cv.liquidation_threshold_adjusted_collateral,
          some (to_uint_floor (sd_of_uint cv.max_ltv_adjusted_collateral
              + phv.max_ltv_numerator).natAbs * decimalOne
            / to_uint_floor (sd_of_uint d + phv.max_ltv_denominator).natAbs),
          some (to_uint_floor (sd_of_uint cv.liquidation_threshold_adjusted_collateral
              + phv.liq_ltv_numerator).natAbs * decimalOne
            / to_uint_floor (sd_of_uint d + phv.liq_ltv_denominator).natAbs),
          phv.pnl_values.profit, phv.pnl_values.loss⟩)
    ∧ (¬(d = 0 ∧ hc.positions.perps = []) →
        (to_uint_floor (sd_of_uint d + phv.max_ltv_denominator).natAbs = 0
          ∨ to_uint_floor (sd_of_uint d + phv.liq_ltv_denominator).natAbs = 0) →
        ∃ e, compute_health hc = .error e) := by
  have hcases := compute_health_cases hc cv d phv hcv hd hp
  have hzd : (sd_of_uint d = 0 ∧ hc.positions.perps = [])
      ↔ (d = 0 ∧ hc.positions.perps = []) := by
    rw [sd_of_uint_eq_zero]
  refine ⟨?_, ?_, ?_, ?_⟩
  · intro hz
    exact hcases.1 (hzd.mpr hz)
  · intro h hh
    by_cases hz : d = 0 ∧ hc.positions.perps = []
    · have h1 := hcases.1 (hzd.mpr hz)
      rw [h1] at hh
      cases hh
      simp [hz]
    · have h2 := hcases.2 (fun hx => hz (hzd.mp hx))
      constructor
      · intro hnone
        by_cases hd1 : to_uint_floor (sd_of_uint d + phv.max_ltv_denominator).natAbs = 0
        · rw [h2.1 hd1] at hh
          cases hh
        · by_cases hd2 : to_uint_floor (sd_of_uint d + phv.liq_ltv_denominator).natAbs = 0
          · rw [h2.2.1 hd1 hd2] at hh
            cases hh
          · rw [h2.2.2 hd1 hd2] at hh
            cases hh
            simp at hnone
      · intro hz2
        exact absurd hz2 hz
  · intro hz hd1 hd2
    exact (hcases.2 (fun hx => hz (hzd.mp hx))).2.2 hd1 hd2
  · intro hz hor
    have h2 := hcases.2 (fun hx => hz (hzd.mp hx))
    rcases hor with h1 | hx
    · exact ⟨_, h2.1 h1⟩
    · by_cases hd1 : to_uint_floor (sd_of_uint d + phv.max_ltv_denominator).natAbs = 0
      · exact ⟨_, h2.1 hd1⟩
      · exact ⟨_, h2.2.1 hd1 hx⟩

/-- Claim C2 witness: the characterization applied to the healthy snapshot,
yielding health factors 5.0 and 6.0. -/
theorem c2_witness :
    compute_health exHealthy = .ok ⟨10, 100, 50, 60, some (5 * decimalOne),
      some (6 * decimalOne), 0, 0⟩ := by
  have h := (c2_health_factors exHealthy ⟨100, 50, 60⟩ 10 ⟨0, 0, 0, 0, ⟨0, 0⟩⟩
    rfl rfl rfl).2.2.1 (by simp) (by decide) (by decide)
  rw [h]
  simp only [Except.ok.injEq]
  decide

/-! Claim C9. -/

/-- Claim C9: compute_health takes the absolute value of the signed numerator
and denominator sums before forming each health factor ratio; consequently,
on the disabled-denom long perp snapshots the combined max-LTV numerator is
negative (-3 resp. -6 scaled units) and the reported health factor is the
ratio of its negation (3.0 resp. 6.0), so the more negative numerator yields
the larger health factor. -/
theorem c9_abs_numerator :
    (∀ (hc : HealthComputer) (cv : CollateralValue) (d : ℕ)
        (phv : PerpHealthFactorValues),
      total_collateral_value hc = .ok cv → spot_debt_value hc = .ok d →
      perp_health_factor_values hc hc.positions.perps = .ok phv →
      ¬(d = 0 ∧ hc.positions.perps = []) →
      to_uint_floor (sd_of_uint d + phv.max_ltv_denominator).natAbs ≠ 0 →
      to_uint_floor (sd_of_uint d + phv.liq_ltv_denominator).natAbs ≠ 0 →
      compute_health hc = .ok ⟨d, cv.total_collateral_value,
        cv.max_ltv_adjusted_collateral, cv.liquidation_threshold_adjusted_collateral,
        some (to_uint_floor (sd_of_uint cv.max_ltv_adjusted_collateral
            + phv.max_ltv_numerator).natAbs * decimalOne
          / to_uint_floor (sd_of_uint d + phv.max_ltv_denominator).natAbs),
        some (to_uint_floor (sd_of_uint cv.liquidation_threshold_adjusted_collateral
            + phv.liq_ltv_numerator).natAbs * decimalOne
          / to_uint_floor (sd_of_uint d + phv.liq_ltv_denominator).natAbs),
        phv.pnl_values.profit, phv.pnl_values.loss⟩)
    ∧ perp_health_factor_values (exDisabledPerp (30 * decimalOne))
        (exDisabledPerp (30 * decimalOne)).positions.perps
      = .ok ⟨-(3 * (decimalOne : ℤ)), (decimalOne : ℤ), -(3 * (decimalOne : ℤ)),
          (decimalOne : ℤ), ⟨0, 0⟩⟩
    ∧ perp_health_factor_values (exDisabledPerp (60 * decimalOne))
        (exDisabledPerp (60 * decimalOne)).positions.perps
      = .ok ⟨-(6 * (decimalOne : ℤ)), (decimalOne : ℤ), -(6 * (decimalOne : ℤ)),
          (decimalOne : ℤ), ⟨0, 0⟩⟩
    ∧ compute_health (exDisabledPerp (30 * decimalOne))
      = .ok ⟨0, 1, 0, 0, some (3 * decimalOne), some (3 * decimalOne), 0, 0⟩
    ∧ compute_health (exDisabledPerp (60 * decimalOne))
      = .ok ⟨0, 1, 0, 0, some (6 * decimalOne), some (6 * decimalOne), 0, 0⟩
    ∧ (-(6 * (decimalOne : ℤ)) < -(3 * (decimalOne : ℤ))
        ∧ (3 * decimalOne : ℕ) < 6 * decimalOne) := by
  refine ⟨?_, rfl, rfl, rfl, rfl, by norm_num [decimalOne], by norm_num [decimalOne]⟩
  intro hc cv d phv hcv hd hp hnz hd1 hd2
  exact (compute_health_cases hc cv d phv hcv hd hp).2
    (fun hx => hnz ((sd_of_uint_eq_zero d).mp hx.1 |> fun h1 => ⟨h1, hx.2⟩)) |>.2.2 hd1 hd2

/-- Claim C9 witness: the absolute-value characterization applied to the
disabled-denom perp snapshot with the negative numerator. -/
theorem c9_witness :
    compute_health (exDisabledPerp (30 * decimalOne))
      = .ok ⟨0, 1, 0, 0,
          some (to_uint_floor (sd_of_uint 0 + -(3 * (decimalOne : ℤ))).natAbs * decimalOne
            / to_uint_floor (sd_of_uint 0 + (decimalOne : ℤ)).natAbs),
          some (to_uint_floor (sd_of_uint 0 + -(3 * (decimalOne : ℤ))).natAbs * decimalOne
            / to_uint_floor (sd_of_uint 0 + (decimalOne : ℤ)).natAbs), 0, 0⟩ :=
  c9_abs_numerator.1 (exDisabledPerp (30 * decimalOne)) ⟨1, 0, 0⟩ 0
    ⟨-(3 * (decimalOne : ℤ)), (decimalOne : ℤ), -(3 * (decimalOne : ℤ)),
      (decimalOne : ℤ), ⟨0, 0⟩⟩
    rfl rfl rfl (by decide) (by decide) (by decide)

/-! Claim C3.  Spec-side formulas for the perp contribution, written with max,
min and absolute values as in the specification text. -/

/-- Spec formula: funding_max = max(0, accrued_funding). -/
def funding_max_spec (p : PerpPosition) : ℤ := max 0 p.accrued_funding

/-- Spec formula: funding_min = -min(0, accrued_funding). -/
def funding_min_spec (p : PerpPosition) : ℤ := -(min 0 p.accrued_funding)

/-- Spec formula: position_value_open = abs(size) times entry_exec_price. -/
def position_value_open_spec (p : PerpPosition) : ℤ :=
  (dec_mul p.size.natAbs p.entry_exec_price : ℕ)

/-- Spec formula: position_value_current = abs(size times current_exec_price). -/
def position_value_current_spec (p : PerpPosition) : ℤ :=
  ((sd_mul p.size (p.current_exec_price : ℤ)).natAbs : ℕ)

/-- The funding helper of the source equals the max/min formulation of the
specification. -/
theorem funding_amounts_spec (p : PerpPosition) :
    get_min_and_max_funding_amounts p = (funding_min_spec p, funding_max_spec p) := by
  unfold get_min_and_max_funding_amounts funding_min_spec funding_max_spec
  dsimp only
  by_cases h1 : 0 < p.accrued_funding
  · rw [if_pos h1, if_neg (by omega)]
    rw [max_eq_right h1.le, min_eq_left h1.le, neg_zero]
  · by_cases h2 : p.accrued_funding < 0
    · rw [if_neg h1, if_pos h2]
      rw [max_eq_left h2.le, min_eq_right h2.le]
      have habs : (p.accrued_funding.natAbs : ℤ) = -p.accrued_funding := by omega
      rw [habs]
    · have h0 : p.accrued_funding = 0 := by omega
      rw [if_neg h1, if_neg h2, h0]
      norm_num

/-- Claim C3: for a short position (size < 0), the perp loop body adds exactly
position_value_open + funding_max_value times base max LTV to the max-LTV
numerator and position_value_current times (2 - perp max LTV + closing fee)
plus funding_min_value to the max-LTV denominator, with funding_max =
max(0, accrued_funding) and funding_min = -min(0, accrued_funding) both
multiplied by the base denom price; the liquidation pair uses the liquidation
thresholds in the same places. -/
theorem c3_short_perp (hc : HealthComputer) (p : PerpPosition) (bp ml ll mlb llb : ℕ)
    (hshort : p.size < 0)
    (hbp : assoc_get hc.oracle_prices p.base_denom = some bp)
    (hml : get_perp_max_ltv hc p.denom = .ok ml)
    (hll : get_perp_liq_ltv hc p.denom = .ok ll)
    (hmlb : get_coin_max_ltv hc p.base_denom = .ok mlb)
    (hllb : get_liquidation_ltv hc p.base_denom = .ok llb) :
    perp_position_values hc p = .ok
      (position_value_open_spec p
          + sd_mul (sd_mul (funding_max_spec p) (bp : ℤ)) (mlb : ℤ),
        sd_mul (position_value_current_spec p)
            (2 * (decimalOne : ℤ) - (ml : ℤ) + (p.closing_fee_rate : ℤ))
          + sd_mul (funding_min_spec p) (bp : ℤ),
        position_value_open_spec p
          + sd_mul (sd_mul (funding_max_spec p) (bp : ℤ)) (llb : ℤ),
        sd_mul (position_value_current_spec p)
            (2 * (decimalOne : ℤ) - (ll : ℤ) + (p.closing_fee_rate : ℤ))
          + sd_mul (funding_min_spec p) (bp : ℤ)) := by
  unfold perp_position_values
  simp only [hbp, ok_or_some, hr_bind_ok, hml, hll, hmlb, hllb,
    funding_amounts_spec]
  rw [if_pos hshort]
  rfl

/-- Claim C3 witness: the short-perp formula applied to the concrete short
position of exShortPerp (size -2, entry 3, current 4, closing fee 0.1,
accrued funding +5, base price 1, perp LTVs 0.4/0.5, base LTVs 0.8/0.9). -/
theorem c3_witness :
    perp_position_values exShortPerp
      ⟨"sperp", "uusdc", -(2 * (decimalOne : ℤ)), 3 * decimalOne, 4 * decimalOne,
        decimalOne / 10, 5 * (decimalOne : ℤ), 5 * (decimalOne : ℤ), .profit 7⟩
      = .ok (10 * (decimalOne : ℤ), (68 * (decimalOne : ℤ)) / 5,
          (21 * (decimalOne : ℤ)) / 2, (64 * (decimalOne : ℤ)) / 5) := by
  have h := c3_short_perp exShortPerp
    ⟨"sperp", "uusdc", -(2 * (decimalOne : ℤ)), 3 * decimalOne, 4 * decimalOne,
      decimalOne / 10, 5 * (decimalOne : ℤ), 5 * (decimalOne : ℤ), .profit 7⟩
    decimalOne (4 * decimalOne / 10) (decimalOne / 2) (8 * decimalOne / 10)
    (9 * decimalOne / 10) (by decide) rfl rfl rfl rfl rfl
  rw [h]
  simp only [Except.ok.injEq]
  decide

/-! Claim C6.  Well-formedness of snapshot risk parameters: the engine never
validates them, so the collateral ordering chain only holds under them. -/

/-- Inversion of a bind returning ok. -/
theorem hr_bind_eq_ok {α β : Type} {x : HealthResult α} {f : α → HealthResult β} {b : β}
    (h : (x >>= f) = .ok b) : ∃ a, x = .ok a ∧ f a = .ok b := by
  cases x with
  | error e => rw [hr_bind_error] at h; cases h
  | ok a => exact ⟨a, rfl, h⟩

theorem ok_or_eq_ok {α : Type} {o : Option α} {e : HealthError} {a : α}
    (h : ok_or o e = .ok a) : o = some a := by
  cases o with
  | none => cases h
  | some v => cases h; rfl

/-- Well-formed HLS parameters: max LTV at most the liquidation threshold,
which is at most one. -/
def goodHlsB (h : HlsParams) : Bool :=
  decide (h.max_loan_to_value ≤ h.liquidation_threshold)
    && decide (h.liquidation_threshold ≤ decimalOne)

/-- Well-formed asset parameters, including the HLS sub-record if present. -/
def goodAssetB (ps : AssetParams) : Bool :=
  decide (ps.max_loan_to_value ≤ ps.liquidation_threshold)
    && decide (ps.liquidation_threshold ≤ decimalOne)
    && (match ps.credit_manager.hls with
        | none => true
        | some h => goodHlsB h)

/-- Well-formed vault config, including the HLS sub-record if present. -/
def goodVaultB (vc : VaultConfig) : Bool :=
  decide (vc.max_loan_to_value ≤ vc.liquidation_threshold)
    && decide (vc.liquidation_threshold ≤ decimalOne)
    && (match vc.hls with
        | none => true
        | some h => goodHlsB h)

theorem goodAssetB_spec {ps : AssetParams} (h : goodAssetB ps = true) :
    ps.max_loan_to_value ≤ ps.liquidation_threshold
    ∧ ps.liquidation_threshold ≤ decimalOne
    ∧ ∀ hh, ps.credit_manager.hls = some hh →
        hh.max_loan_to_value ≤ hh.liquidation_threshold
        ∧ hh.liquidation_threshold ≤ decimalOne := by
  simp only [goodAssetB, Bool.and_eq_true, decide_eq_true_eq] at h
  refine ⟨h.1.1, h.1.2, fun hh hhh => ?_⟩
  rw [hhh] at h
  have h2 := h.2
  simp only [goodHlsB, Bool.and_eq_true, decide_eq_true_eq] at h2
  exact h2

theorem goodVaultB_spec {vc : VaultConfig} (h : goodVaultB vc = true) :
    vc.max_loan_to_value ≤ vc.liquidation_threshold
    ∧ vc.liquidation_threshold ≤ decimalOne
    ∧ ∀ hh, vc.hls = some hh →
        hh.max_loan_to_value ≤ hh.liquidation_threshold
        ∧ hh.liquidation_threshold ≤ decimalOne := by
  simp only [goodVaultB, Bool.and_eq_true, decide_eq_true_eq] at h
  refine ⟨h.1.1, h.1.2, fun hh hhh => ?_⟩
  rw [hhh] at h
  have h2 := h.2
  simp only [goodHlsB, Bool.and_eq_true, decide_eq_true_eq] at h2
  exact h2

/-- The three totals of a single coin contribution are ordered when the asset
parameters are well formed. -/
theorem coin_contribution_chain (hc : HealthComputer) (c : Coin) (v m l : ℕ)
    (hgood : ∀ e ∈ hc.asset_params, goodAssetB e.2 = true)
    (h : coin_contribution hc c = .ok (v, m, l)) : m ≤ l ∧ l ≤ v := by
  unfold coin_contribution at h
  obtain ⟨price, hprice, h⟩ := hr_bind_eq_ok h
  obtain ⟨ps, hps, h⟩ := hr_bind_eq_ok h
  obtain ⟨ltv, hltv, h⟩ := hr_bind_eq_ok h
  have hmem := hgood (c.denom, ps) (assoc_get_some_mem (ok_or_eq_ok hps))
  obtain ⟨ha, hb, hhls⟩ := goodAssetB_spec hmem
  unfold get_coin_max_ltv at hltv
  rw [ok_or_eq_ok hps] at hltv
  simp only [ok_or_some, hr_bind_ok] at hltv
  cases hk : hc.kind with
  | default =>
      simp only [hk] at h hltv
      obtain ⟨lt, hlt, h⟩ := hr_bind_eq_ok h
      rw [hr_pure_eq] at hlt
      cases hlt
      simp only [hr_pure_eq] at h
      cases h
      by_cases hwl : ps.credit_manager.whitelisted = false
      · rw [if_pos hwl, hr_pure_eq] at hltv
        cases hltv
        exact ⟨uint_mul_floor_mono _ (Nat.zero_le _), uint_mul_floor_le_self _ hb⟩
      · rw [if_neg hwl, hr_pure_eq] at hltv
        cases hltv
        exact ⟨uint_mul_floor_mono _ ha, uint_mul_floor_le_self _ hb⟩
  | highLeveredStrategy =>
      simp only [hk] at h hltv
      obtain ⟨hh, hhh, h⟩ := hr_bind_eq_ok h
      obtain ⟨lt, hlt, h⟩ := hr_bind_eq_ok h
      rw [hr_pure_eq] at hlt
      cases hlt
      simp only [hr_pure_eq] at h
      cases h
      have hfacts := hhls hh (ok_or_eq_ok hhh)
      by_cases hwl : ps.credit_manager.whitelisted = false
      · rw [if_pos hwl, hr_pure_eq] at hltv
        cases hltv
        exact ⟨uint_mul_floor_mono _ (Nat.zero_le _), uint_mul_floor_le_self _ hfacts.2⟩
      · rw [if_neg hwl] at hltv
        obtain ⟨hh1, hhh1, hltv2⟩ := hr_bind_eq_ok hltv
        rw [hr_pure_eq] at hltv2
        cases hltv2
        have hsame : hh1 = hh := by
          have e1 := ok_or_eq_ok hhh1
          have e2 := ok_or_eq_ok hhh
          rw [e1] at e2
          cases e2
          rfl
        cases hsame
        exact ⟨uint_mul_floor_mono _ hfacts.1, uint_mul_floor_le_self _ hfacts.2⟩

/-- The coins_value totals are ordered when the asset parameters are well
formed. -/
theorem coins_value_chain (hc : HealthComputer)
    (hgood : ∀ e ∈ hc.asset_params, goodAssetB e.2 = true) :
    ∀ (coins : List Coin) (acc : CollateralValue), coins_value hc coins = .ok acc →
      acc.max_ltv_adjusted_collateral ≤ acc.liquidation_threshold_adjusted_collateral
      ∧ acc.liquidation_threshold_adjusted_collateral ≤ acc.total_collateral_value := by
  intro coins
  induction coins with
  | nil =>
      intro acc h
      rw [coins_value] at h
      cases h
      exact ⟨le_refl _, le_refl _⟩
  | cons c rest ih =>
      intro acc h
      rw [coins_value] at h
      obtain ⟨t, ht, h⟩ := hr_bind_eq_ok h
      obtain ⟨v, m, l⟩ := t
      obtain ⟨acc2, hacc2, h⟩ := hr_bind_eq_ok h
      simp only [hr_pure_eq] at h
      cases h
      have h1 := coin_contribution_chain hc c v m l hgood ht
      have h2 := ih acc2 hacc2
      exact ⟨Nat.add_le_add h1.1 h2.1, Nat.add_le_add h1.2 h2.2⟩

/-- The three totals of a single vault contribution are ordered when the
asset and vault parameters are well formed. -/
theorem vault_contribution_chain (hc : HealthComputer)
    (hgood : ∀ e ∈ hc.asset_params, goodAssetB e.2 = true)
    (hgoodv : ∀ e ∈ hc.vaults_data.vault_configs, goodVaultB e.2 = true)
    (v : VaultPosition) (t m l : ℕ)
    (h : vault_contribution hc v = .ok (t, m, l)) : m ≤ l ∧ l ≤ t := by
  unfold vault_contribution at h
  obtain ⟨values, hvalues, h⟩ := hr_bind_eq_ok h
  obtain ⟨config, hconfig, h⟩ := hr_bind_eq_ok h
  obtain ⟨bp, hbp, h⟩ := hr_bind_eq_ok h
  have hmem := hgoodv (v.address, config) (assoc_get_some_mem (ok_or_eq_ok hconfig))
  obtain ⟨ha, hb, hhls⟩ := goodVaultB_spec hmem
  cases hk : hc.kind with
  | default =>
      simp only [hk] at h
      by_cases hwb : (config.whitelisted && bp.credit_manager.whitelisted) = true
      · rw [if_pos hwb] at h
        obtain ⟨vltv, hvltv, h⟩ := hr_bind_eq_ok h
        rw [hr_pure_eq] at hvltv
        cases hvltv
        obtain ⟨vlt, hvlt, h⟩ := hr_bind_eq_ok h
        rw [hr_pure_eq] at hvlt
        cases hvlt
        obtain ⟨res, hres, h⟩ := hr_bind_eq_ok h
        simp only [hr_pure_eq] at h
        cases h
        have hresc := coins_value_chain hc hgood _ _ hres
        exact ⟨Nat.add_le_add (uint_mul_floor_mono _ ha) hresc.1,
          Nat.add_le_add (uint_mul_floor_le_self _ hb) hresc.2⟩
      · rw [if_neg hwb] at h
        obtain ⟨vltv, hvltv, h⟩ := hr_bind_eq_ok h
        rw [hr_pure_eq] at hvltv
        cases hvltv
        obtain ⟨vlt, hvlt, h⟩ := hr_bind_eq_ok h
        rw [hr_pure_eq] at hvlt
        cases hvlt
        obtain ⟨res, hres, h⟩ := hr_bind_eq_ok h
        simp only [hr_pure_eq] at h
        cases h
        have hresc := coins_value_chain hc hgood _ _ hres
        exact ⟨Nat.add_le_add (uint_mul_floor_mono _ (Nat.zero_le _)) hresc.1,
          Nat.add_le_add (uint_mul_floor_le_self _ hb) hresc.2⟩
  | highLeveredStrategy =>
      simp only [hk] at h
      by_cases hwb : (config.whitelisted && bp.credit_manager.whitelisted) = true
      · rw [if_pos hwb] at h
        obtain ⟨hh1, hhh1, h⟩ := hr_bind_eq_ok h
        obtain ⟨vltv, hvltv, h⟩ := hr_bind_eq_ok h
        rw [hr_pure_eq] at hvltv
        cases hvltv
        obtain ⟨hh2, hhh2, h⟩ := hr_bind_eq_ok h
        obtain ⟨vlt, hvlt, h⟩ := hr_bind_eq_ok h
        rw [hr_pure_eq] at hvlt
        cases hvlt
        obtain ⟨res, hres, h⟩ := hr_bind_eq_ok h
        simp only [hr_pure_eq] at h
        cases h
        have hsame : hh1 = hh2 := by
          have e1 := ok_or_eq_ok hhh1
          have e2 := ok_or_eq_ok hhh2
          rw [e1] at e2
          cases e2
          rfl
        cases hsame
        have hfacts := hhls hh1 (ok_or_eq_ok hhh1)
        have hresc := coins_value_chain hc hgood _ _ hres
        exact ⟨Nat.add_le_add (uint_mul_floor_mono _ hfacts.1) hresc.1,
          Nat.add_le_add (uint_mul_floor_le_self _ hfacts.2) hresc.2⟩
      · rw [if_neg hwb] at h
        obtain ⟨vltv, hvltv, h⟩ := hr_bind_eq_ok h
        rw [hr_pure_eq] at hvltv
        cases hvltv
        obtain ⟨hh2, hhh2, h⟩ := hr_bind_eq_ok h
        obtain ⟨vlt, hvlt, h⟩ := hr_bind_eq_ok h
        rw [hr_pure_eq] at hvlt
        cases hvlt
        obtain ⟨res, hres, h⟩ := hr_bind_eq_ok h
        simp only [hr_pure_eq] at h
        cases h
        have hfacts := hhls hh2 (ok_or_eq_ok hhh2)
        have hresc := coins_value_chain hc hgood _ _ hres
        exact ⟨Nat.add_le_add (uint_mul_floor_mono _ (Nat.zero_le _)) hresc.1,
          Nat.add_le_add (uint_mul_floor_le_self _ hfacts.2) hresc.2⟩

/-- The vault totals are ordered when the parameters are well formed. -/
theorem vaults_value_of_chain (hc : HealthComputer)
    (hgood : ∀ e ∈ hc.asset_params, goodAssetB e.2 = true)
    (hgoodv : ∀ e ∈ hc.vaults_data.vault_configs, goodVaultB e.2 = true) :
    ∀ (vs : List VaultPosition) (acc : CollateralValue),
      vaults_value_of hc vs = .ok acc →
      acc.max_ltv_adjusted_collateral ≤ acc.liquidation_threshold_adjusted_collateral
      ∧ acc.liquidation_threshold_adjusted_collateral ≤ acc.total_collateral_value := by
  intro vs
  induction vs with
  | nil =>
      intro acc h
      rw [vaults_value_of] at h
      cases h
      exact ⟨le_refl _, le_refl _⟩
  | cons v rest ih =>
      intro acc h
      rw [vaults_value_of] at h
      obtain ⟨t0, ht0, h⟩ := hr_bind_eq_ok h
      obtain ⟨t, m, l⟩ := t0
      obtain ⟨acc2, hacc2, h⟩ := hr_bind_eq_ok h
      simp only [hr_pure_eq] at h
      cases h
      have h1 := vault_contribution_chain hc hgood hgoodv v t m l ht0
      have h2 := ih acc2 hacc2
      exact ⟨Nat.add_le_add h1.1 h2.1, Nat.add_le_add h1.2 h2.2⟩

/-- The combined collateral totals are ordered when the parameters are well
formed. -/
theorem total_collateral_value_chain (hc : HealthComputer)
    (hgood : ∀ e ∈ hc.asset_params, goodAssetB e.2 = true)
    (hgoodv : ∀ e ∈ hc.vaults_data.vault_configs, goodVaultB e.2 = true)
    (cv : CollateralValue) (hcv : total_collateral_value hc = .ok cv) :
    cv.max_ltv_adjusted_collateral ≤ cv.liquidation_threshold_adjusted_collateral
    ∧ cv.liquidation_threshold_adjusted_collateral ≤ cv.total_collateral_value := by
  unfold total_collateral_value at hcv
  obtain ⟨dep, hdep, hcv⟩ := hr_bind_eq_ok hcv
  obtain ⟨len, hlen, hcv⟩ := hr_bind_eq_ok hcv
  obtain ⟨vau, hvau, hcv⟩ := hr_bind_eq_ok hcv
  rw [hr_pure_eq] at hcv
  cases hcv
  have h1 := coins_value_chain hc hgood _ _ hdep
  have h2 := coins_value_chain hc hgood _ _ hlen
  have h3 := vaults_value_of_chain hc hgood hgoodv _ _ hvau
  constructor
  · exact Nat.add_le_add (Nat.add_le_add h1.1 h3.1) h2.1
  · exact Nat.add_le_add (Nat.add_le_add h1.2 h3.2) h2.2

/-- Extraction of the collateral record from a successful compute_health. -/
theorem compute_health_ok_collateral (hc : HealthComputer) (h : Health)
    (hch : compute_health hc = .ok h) :
    ∃ cv, total_collateral_value hc = .ok cv
      ∧ h.total_collateral_value = cv.total_collateral_value
      ∧ h.max_ltv_adjusted_collateral = cv.max_ltv_adjusted_collateral
      ∧ h.liquidation_threshold_adjusted_collateral
          = cv.liquidation_threshold_adjusted_collateral := by
  unfold compute_health at hch
  obtain ⟨cv, hcv, hch⟩ := hr_bind_eq_ok hch
  obtain ⟨d, hd, hch⟩ := hr_bind_eq_ok hch
  obtain ⟨phv, hphv, hch⟩ := hr_bind_eq_ok hch
  by_cases hz : sd_of_uint d = 0 ∧ hc.positions.perps = []
  · rw [if_pos hz] at hch
    obtain ⟨hfs, hhfs, hch⟩ := hr_bind_eq_ok hch
    simp only [hr_pure_eq] at hch
    cases hch
    exact ⟨cv, hcv, rfl, rfl, rfl⟩
  · rw [if_neg hz] at hch
    obtain ⟨mhf, hmhf, hch⟩ := hr_bind_eq_ok hch
    obtain ⟨lhf, hlhf, hch⟩ := hr_bind_eq_ok hch
    obtain ⟨hfs, hhfs, hch⟩ := hr_bind_eq_ok hch
    simp only [hr_pure_eq] at hch
    cases hch
    exact ⟨cv, hcv, rfl, rfl, rfl⟩

/-- Claim C6 counterexample: the engine performs no validation of the risk
parameters; with max LTV 0.9 above liquidation threshold 0.5 compute_health
succeeds and reports max-LTV adjusted collateral 9 above the
liquidation-threshold adjusted collateral 5. -/
theorem c6_counterexample :
    compute_health exLtvAboveLt = .ok ⟨0, 10, 9, 5, none, none, 0, 0⟩
    ∧ ¬((9 : ℕ) ≤ 5) := ⟨rfl, by norm_num⟩

/-- Claim C6 (amended): for every snapshot whose asset params and vault
configs are well formed (max LTV at most liquidation threshold at most one,
also for the HLS sub-records), a successful compute_health satisfies
max_ltv_adjusted_collateral at most liq_threshold_adjusted_collateral at most
total_collateral_value. -/
theorem c6_collateral_chain (hc : HealthComputer) (h : Health)
    (hgood : ∀ e ∈ hc.asset_params, goodAssetB e.2 = true)
    (hgoodv : ∀ e ∈ hc.vaults_data.vault_configs, goodVaultB e.2 = true)
    (hch : compute_health hc = .ok h) :
    h.max_ltv_adjusted_collateral ≤ h.liquidation_threshold_adjusted_collateral
    ∧ h.liquidation_threshold_adjusted_collateral ≤ h.total_collateral_value := by
  obtain ⟨cv, hcv, e1, e2, e3⟩ := compute_health_ok_collateral hc h hch
  have hchain := total_collateral_value_chain hc hgood hgoodv cv hcv
  rw [e1, e2, e3]
  exact hchain

/-- Claim C6 witness: the chain applied to the healthy snapshot with well
formed parameters. -/
theorem c6_witness :
    (50 : ℕ) ≤ 60 ∧ (60 : ℕ) ≤ 100 := by
  have h := c6_collateral_chain exHealthy ⟨10, 100, 50, 60, some (5 * decimalOne),
    some (6 * decimalOne), 0, 0⟩ (by decide) (by decide) (by decide)
  exact h

/-! Claim C10. -/

/-- Claim C10: with some debt or some perp position, whenever the effective
max LTV of the from-denom or of the to-denom is zero (in particular when the
asset is de-listed), max_swap_amount_estimate returns zero whenever it
returns at all, for both swap kinds and regardless of the from-denom
balance. -/
theorem c10_swap_zero_ltv (hc : HealthComputer) (from_denom to_denom : Denom)
    (kind : SwapKind) (slippage : ℕ) (r fl tl : ℕ)
    (hne : hc.positions.debts ≠ [] ∨ hc.positions.perps ≠ [])
    (hfl : get_coin_max_ltv hc from_denom = .ok fl)
    (htl : get_coin_max_ltv hc to_denom = .ok tl)
    (hzero : fl = 0 ∨ tl = 0)
    (hr : max_swap_amount_estimate hc from_denom to_denom kind slippage = .ok r) :
    r = 0 := by
  unfold max_swap_amount_estimate at hr
  rw [if_neg (by
    rintro ⟨h1, h2, h3⟩
    rcases hne with h | h
    exacts [h h2, h h3])] at hr
  cases hcv : total_collateral_value hc with
  | error e => rw [hcv, hr_bind_error] at hr; cases hr
  | ok cv =>
  rw [hcv] at hr
  simp only [hr_bind_ok] at hr
  cases hd : spot_debt_value hc with
  | error e => rw [hd, hr_bind_error] at hr; cases hr
  | ok d =>
  rw [hd] at hr
  simp only [hr_bind_ok] at hr
  cases hphv : perp_health_factor_values hc hc.positions.perps with
  | error e => rw [hphv, hr_bind_error] at hr; cases hr
  | ok phv =>
  rw [hphv] at hr
  simp only [hr_bind_ok] at hr
  by_cases hcond : hc.positions.perps ≠ [] ∨ 0 < (sd_of_uint d).natAbs
  · rw [if_pos hcond] at hr
    cases hdiv : sd_div (sd_of_uint cv.max_ltv_adjusted_collateral + phv.max_ltv_numerator)
        (sd_of_uint d + phv.max_ltv_denominator) with
    | error e => rw [hdiv, hr_bind_error] at hr; cases hr
    | ok hf =>
    rw [hdiv] at hr
    simp only [hr_bind_ok, hr_pure_eq] at hr
    by_cases hg : hf.natAbs ≤ decimalOne
    · simp only [hg, decide_True, if_true, hr_pure_eq] at hr
      cases hr
      rfl
    · simp only [hg, decide_False, if_false] at hr
      rw [hfl] at hr
      simp only [hr_bind_ok] at hr
      rw [htl] at hr
      simp only [hr_bind_ok] at hr
      rw [if_pos hzero] at hr
      simp only [Bool.false_eq_true, if_false, hr_pure_eq, Except.ok.injEq] at hr
      omega
  · rw [if_neg hcond] at hr
    simp only [hr_pure_eq, hr_bind_ok, if_false] at hr
    rw [hfl] at hr
    simp only [hr_bind_ok] at hr
    rw [htl] at hr
    simp only [hr_bind_ok] at hr
    rw [if_pos hzero] at hr
    simp only [Bool.false_eq_true, if_false, hr_pure_eq, Except.ok.injEq] at hr
    omega

/-- Claim C10 witness: in exSwapDelisted (debt present, healthy account) a
swap from uatom toward the de-listed denom xyz yields zero. -/
theorem c10_witness :
    max_swap_amount_estimate exSwapDelisted "uatom" "xyz" .default 0 = .ok 0
    ∧ (0 : ℕ) = 0 :=
  ⟨rfl, c10_swap_zero_ltv exSwapDelisted "uatom" "xyz" .default 0 0
    (8 * decimalOne / 10) 0 (.inl (by decide)) rfl rfl (.inr rfl) rfl⟩

/-! Claim C4. -/

/-- Claim C4 counterexample: in exDisabledPerp(30) the perp list is nonempty
and the estimator's internal health factor is -3, which is at most 1, yet
max_withdraw_amount_estimate returns 1 rather than zero.  The source compares
the absolute value of the health factor with one and takes the absolute value
of the negative numerator. -/
theorem c4_counterexample :
    max_withdraw_amount_estimate (exDisabledPerp (30 * decimalOne)) "uatom" = .ok 1
    ∧ (exDisabledPerp (30 * decimalOne)).positions.perps ≠ []
    ∧ sd_div (sd_of_uint 0 + -(3 * (decimalOne : ℤ))) (sd_of_uint 0 + (decimalOne : ℤ))
        = .ok (-(3 * (decimalOne : ℤ)))
    ∧ -(3 * (decimalOne : ℤ)) ≤ sd_of_uint 1
    ∧ sd_of_uint 0 - sd_of_uint 0 - (decimalOne : ℤ) + -(3 * (decimalOne : ℤ))
        - sd_of_uint 1 < 0
    ∧ (1 : ℕ) ≠ 0 :=
  ⟨rfl, by decide, rfl, by decide, by decide, by decide⟩

/-- Claim C4 (amended): for a Default account, whitelisted withdraw denom,
positive available balance, and debts or perps present, when the internal
health factor computation succeeds: if its absolute value is at most one the
estimate is zero, and otherwise the estimate is the minimum of the available
balance and floor(abs(RWA_max - spot_debt - perp_den + perp_num - 1) /
(price times max LTV)). -/
theorem c4_max_withdraw (hc : HealthComputer) (w : Denom) (ps : AssetParams)
    (cv : CollateralValue) (d : ℕ) (phv : PerpHealthFactorValues) (p : ℕ) (hf : ℤ)
    (hkind : hc.kind = .default)
    (havail : (get_coin_from_deposits_and_lends hc w).amount ≠ 0)
    (hps : assoc_get hc.asset_params w = some ps)
    (hwl : ps.credit_manager.whitelisted = true)
    (hne : ¬(hc.positions.debts = [] ∧ hc.positions.perps = []))
    (hcv : total_collateral_value hc = .ok cv)
    (hd : spot_debt_value hc = .ok d)
    (hp : assoc_get hc.oracle_prices w = some p)
    (hphv : perp_health_factor_values hc hc.positions.perps = .ok phv)
    (hcond : hc.positions.perps ≠ [] ∨ 0 < (sd_of_uint d).natAbs)
    (hdiv : sd_div (sd_of_uint cv.max_ltv_adjusted_collateral + phv.max_ltv_numerator)
        (sd_of_uint d + phv.max_ltv_denominator) = .ok hf) :
    (hf.natAbs ≤ decimalOne → max_withdraw_amount_estimate hc w = .ok 0)
    ∧ (decimalOne < hf.natAbs → dec_mul p ps.max_loan_to_value ≠ 0 →
        max_withdraw_amount_estimate hc w = .ok (min
          (to_uint_floor (sd_of_uint cv.max_ltv_adjusted_collateral - sd_of_uint d
              - phv.max_ltv_denominator + phv.max_ltv_numerator - sd_of_uint 1).natAbs
            * decimalOne / dec_mul p ps.max_loan_to_value)
          (get_coin_from_deposits_and_lends hc w).amount)) := by
  have hnotor : ¬((hc.positions.debts = [] ∧ hc.positions.perps = [])
      ∨ ps.credit_manager.whitelisted = false) := by
    rintro (h | h)
    · exact hne h
    · rw [hwl] at h
      cases h
  unfold max_withdraw_amount_estimate
  dsimp only
  rw [if_neg havail]
  simp only [hps, ok_or_some, hr_bind_ok]
  rw [if_neg hnotor]
  simp only [hcv, hr_bind_ok, hd, hp, ok_or_some, hkind, hphv, hr_pure_eq]
  rw [if_pos hcond]
  simp only [hdiv, hr_bind_ok, hr_pure_eq]
  constructor
  · intro hg
    simp only [hg, decide_True, if_true, hr_pure_eq]
  · intro hg hnz
    have hng : ¬hf.natAbs ≤ decimalOne := by omega
    simp only [hng, decide_False, if_false]
    simp only [uint_div_floor]
    rw [if_neg hnz]
    simp only [hr_bind_ok, hr_pure_eq, Bool.false_eq_true, if_false]

/-- Claim C4 witness: the amended statement applied to the healthy snapshot,
whose internal health factor is 5 and whose estimate is 78. -/
theorem c4_witness :
    max_withdraw_amount_estimate exHealthy "uatom" = .ok 78 := by
  have h := (c4_max_withdraw exHealthy "uatom"
    (ps_whitelisted (decimalOne / 2) (6 * decimalOne / 10)) ⟨100, 50, 60⟩ 10
    ⟨0, 0, 0, 0, ⟨0, 0⟩⟩ decimalOne (5 * (decimalOne : ℤ))
    rfl (by decide) rfl rfl (by decide) rfl rfl rfl rfl (.inr (by decide)) (by decide)).2
    (by decide) (by decide)
  rw [h]
  simp only [Except.ok.injEq]
  decide

/-! Claim C8. -/

/-- Claim C8: every entry point (compute_health, the max estimators including
the perp-size estimator, and liquidation_price) is a deterministic pure
function of the snapshot and its scalar arguments: two calls with identical
inputs produce identical outputs.  The embedding is state free (each function
consumes the snapshot by value), so no call can mutate the snapshot. -/
theorem c8_determinism (hc1 hc2 : HealthComputer) (w f t b dn pd pbd : Denom)
    (k : SwapKind) (s : ℕ) (tgt : BorrowTarget) (lk : LiquidationPriceKind)
    (lo so : ℕ) (dir : Direction) (h : hc1 = hc2) :
    compute_health hc1 = compute_health hc2
    ∧ max_withdraw_amount_estimate hc1 w = max_withdraw_amount_estimate hc2 w
    ∧ max_swap_amount_estimate hc1 f t k s = max_swap_amount_estimate hc2 f t k s
    ∧ max_borrow_amount_estimate hc1 b tgt = max_borrow_amount_estimate hc2 b tgt
    ∧ max_perp_size_estimate hc1 pd pbd lo so dir
        = max_perp_size_estimate hc2 pd pbd lo so dir
    ∧ liquidation_price hc1 dn lk = liquidation_price hc2 dn lk := by
  subst h
  exact ⟨rfl, rfl, rfl, rfl, rfl, rfl⟩

/-- Claim C8 witness: determinism instantiated at the healthy snapshot. -/
theorem c8_witness :
    compute_health exHealthy = compute_health exHealthy
    ∧ max_withdraw_amount_estimate exHealthy "uatom"
        = max_withdraw_amount_estimate exHealthy "uatom" := by
  have h := c8_determinism exHealthy exHealthy "uatom" "uatom" "uusdc" "uatom"
    "uatom" "uatom" "uusdc" .default 0 .wallet .asset 0 0 .long rfl
  exact ⟨h.1, h.2.1⟩

end MarsHealth
